import Mathlib

/-!
Shallow embedding of the DriftMasterChampionship rules engine
(`app/rules.py`, `app/services.py`, `app/models.py`) and proofs about it.

Modelling conventions:
* Python floats carrying judge scores are modelled as exact rationals (`ℚ`);
  `round(x, 2)` becomes exact banker's rounding to hundredths on `ℚ`, and the
  float literal `1e-9` becomes the rational `1 / 1000000000`.
* SQLAlchemy rows become Lean structures; a database table becomes a list of
  rows in insertion order, so SQL queries without an ORDER BY read the list in
  order, `db.scalar(select(...))` is `List.find?`, and an `UPDATE` of a row is
  a positional `List.map` replacement.  Unique constraints of `models.py`
  (one entry per driver, one judge assignment per judge, one score row per
  key) appear as `Nodup` hypotheses where a claim needs them.
* Python's stable `list.sort(key=...)` is modelled by the stable insertion
  sort `List.insertionSort` ordered by `key a ≤ key b`; tuple keys become
  lexicographic products (`×ₗ`).
* Python dicts keyed by ids become association lists with insert-or-replace
  semantics preserving insertion order, matching dict iteration order.
* Functions that raise `HTTPException` return `Except String`; a raise happens
  before any mutation, so an error carries no state (the surrounding
  transaction leaves no partial mutation).
-/

namespace DriftMaster

/-- First-occurrence deduplication, matching Python dict-key iteration order. -/
def dedupFirst (l : List ℕ) : List ℕ :=
  l.foldl (fun acc x => if x ∈ acc then acc else acc ++ [x]) []

/-- Python `max(values)` over a nonempty list (0 as a dummy for `[]`). -/
def listMax : List ℚ → ℚ
  | [] => 0
  | x :: xs => xs.foldl max x

/-- Python `min(values)` over a nonempty list (0 as a dummy for `[]`). -/
def listMin : List ℚ → ℚ
  | [] => 0
  | x :: xs => xs.foldl min x

/-- Comparison by a key function into a linear order, used to model Python's
`list.sort(key=...)`. -/
def keyLe {α β : Type} [LinearOrder β] (k : α → β) (a b : α) : Prop :=
  k a ≤ k b

instance keyLeDecidable {α β : Type} [LinearOrder β] (k : α → β) :
    DecidableRel (keyLe k) :=
  fun a b => inferInstanceAs (Decidable (k a ≤ k b))

theorem keyLe_isTotal {α β : Type} [LinearOrder β] (k : α → β) :
    IsTotal α (keyLe k) :=
  ⟨fun a b => le_total (k a) (k b)⟩

theorem keyLe_isTrans {α β : Type} [LinearOrder β] (k : α → β) :
    IsTrans α (keyLe k) :=
  ⟨fun _ _ _ hab hbc => le_trans hab hbc⟩

/-- Python's stable sort by a key function: stable insertion sort ordered by
`key a ≤ key b`. -/
def sortByKey {α β : Type} [LinearOrder β] (k : α → β) (l : List α) : List α :=
  List.insertionSort (keyLe k) l

theorem sortByKey_sorted {α β : Type} [LinearOrder β] (k : α → β) (l : List α) :
    List.Sorted (keyLe k) (sortByKey k l) := by
  haveI := keyLe_isTotal k
  haveI := keyLe_isTrans k
  exact List.sorted_insertionSort (keyLe k) l

theorem sortByKey_perm {α β : Type} [LinearOrder β] (k : α → β) (l : List α) :
    (sortByKey k l).Perm l :=
  List.perm_insertionSort (keyLe k) l

/-- Computable floor of a rational (`Int.fdiv` floors for the positive
denominator of a normalised `Rat`). -/
def qfloor (x : ℚ) : ℤ := x.num.fdiv x.den

/-- Exact banker's rounding (round half to even) of a rational to an integer,
the idealisation of Python's built-in `round`. -/
def roundHalfEven (x : ℚ) : ℤ :=
  let n := qfloor x
  let f := x - (n : ℚ)
  if f < 1 / 2 then n
  else if (1 : ℚ) / 2 < f then n + 1
  else if n % 2 = 0 then n else n + 1

/-- Source `rules.round_score`: round to `SCORE_DECIMALS = 2` decimals. -/
def round_score (value : ℚ) : ℚ :=
  (roundHalfEven (value * 100) : ℚ) / 100

/-- Source `rules.average`: mean of a list, `0.0` for the empty list. -/
def average (values : List ℚ) : ℚ :=
  if values.isEmpty then 0 else values.sum / (values.length : ℚ)

/-- Source `rules.RoundResolution`. -/
structure RoundResolution where
  winner_slot : Option ℕ
  driver1_round_score : ℚ
  driver2_round_score : ℚ
deriving DecidableEq

/-- Source `rules.resolve_two_run_round`: winner decided by the average score
across the two runs; `winner_slot = none` means a tie (overtime). -/
def resolve_two_run_round (run1_driver1_avg run1_driver2_avg
    run2_driver1_avg run2_driver2_avg : ℚ) : RoundResolution :=
  let driver1_round := round_score ((run1_driver1_avg + run2_driver1_avg) / 2)
  let driver2_round := round_score ((run1_driver2_avg + run2_driver2_avg) / 2)
  if |driver1_round - driver2_round| < 1 / 1000000000 then
    ⟨none, driver1_round, driver2_round⟩
  else if driver1_round > driver2_round then
    ⟨some 1, driver1_round, driver2_round⟩
  else
    ⟨some 2, driver1_round, driver2_round⟩

/-- Source `rules.competition_points_for_place`. -/
def competition_points_for_place (place : ℕ) : ℕ :=
  if place = 1 then 100
  else if place = 2 then 88
  else if place = 3 then 76
  else if place = 4 then 64
  else if 5 ≤ place ∧ place ≤ 8 then 48
  else if 9 ≤ place ∧ place ≤ 16 then 32
  else if 17 ≤ place ∧ place ≤ 32 then 16
  else 0

/-- Source `rules.qualifying_bonus_for_rank`. -/
def qualifying_bonus_for_rank (rank : ℕ) : ℕ :=
  if rank = 1 then 3 else if rank = 2 then 2 else if rank = 3 then 1 else 0

/-- Source `rules.total_after_drop_lowest_once`: remove exactly one occurrence
of the lowest score if the driver has more than one result. -/
def total_after_drop_lowest_once (scores : List ℚ) : ℚ :=
  match scores with
  | [] => 0
  | [x] => x
  | x :: y :: rest => (x :: y :: rest).sum - listMin (x :: y :: rest)

/-- Source `rules.Pair`. -/
abbrev Pair := ℕ × ℕ

/-- Size of `set(pair).intersection(last_drivers)`: the number of distinct
drivers of the pair appearing in `last`. -/
def overlap_count (p : Pair) (last : List ℕ) : ℕ :=
  (dedupFirst [p.1, p.2]).countP (fun d => decide (d ∈ last))

/-- Sort key of `rules.order_battles_avoid_consecutive` applied to
`enumerate(remaining)` items: overlap with the previous battle, then the
pair's natural numeric order. -/
def obac_key (last : List ℕ) (item : ℕ × Pair) : ℕ ×ₗ ℕ ×ₗ ℕ :=
  toLex (overlap_count item.2 last, toLex (item.2.1, item.2.2))

theorem perm_cons_eraseIdx_of_getElem? {α : Type} {l : List α} {i : ℕ}
    {a : α} (h : l[i]? = some a) : l.Perm (a :: l.eraseIdx i) := by
  obtain ⟨hlt, hget⟩ := List.getElem?_eq_some.mp h
  conv_lhs => rw [← List.take_append_drop i l]
  rw [List.drop_eq_getElem_cons hlt, hget, List.eraseIdx_eq_take_drop_succ]
  exact List.perm_middle

theorem head_sortByKey_mem {α β : Type} [LinearOrder β] {k : α → β}
    {l : List α} {best : α} {rest : List α}
    (h : sortByKey k l = best :: rest) : best ∈ l := by
  have hmem : best ∈ sortByKey k l := by rw [h]; exact List.mem_cons_self _ _
  exact (sortByKey_perm k l).mem_iff.mp hmem

/-- Loop body of `rules.order_battles_avoid_consecutive`: repeatedly pick the
first remaining pair minimising `(overlap, pair)` (the head of Python's stable
`sorted(enumerate(remaining), key=...)`), pop it, and recurse with the chosen
pair's drivers as the new `last_drivers` set. -/
def obac_loop (remaining : List Pair) (last_drivers : List ℕ) : List Pair :=
  match remaining with
  | [] => []
  | q :: qs =>
    match hr : sortByKey (obac_key last_drivers) ((q :: qs).enum) with
    | [] => []
    | best :: _ =>
      have hmem : best ∈ (q :: qs).enum := head_sortByKey_mem hr
      have hlt : best.1 < (q :: qs).length := by
        have h2 := List.mem_enum_iff_getElem?.mp hmem
        exact (List.getElem?_eq_some.mp h2).1
      best.2 :: obac_loop ((q :: qs).eraseIdx best.1) [best.2.1, best.2.2]
termination_by remaining.length
decreasing_by
  simp only [List.length_eraseIdx, if_pos hlt]
  omega

/-- Source `rules.order_battles_avoid_consecutive`: greedy ordering that
avoids consecutive appearances when possible. -/
def order_battles_avoid_consecutive (pairs : List Pair) : List Pair :=
  obac_loop pairs []

theorem obac_loop_perm_aux : ∀ (n : ℕ) (remaining : List Pair)
    (last_drivers : List ℕ), remaining.length = n →
    (obac_loop remaining last_drivers).Perm remaining := by
  intro n
  induction n using Nat.strong_induction_on with
  | _ n ih =>
  intro remaining last_drivers hn
  subst hn
  rw [obac_loop.eq_def]
  split
  · exact List.Perm.refl _
  next q qs =>
    split
    next hr =>
      have hp := sortByKey_perm (obac_key last_drivers) ((q :: qs).enum)
      rw [hr] at hp
      have := hp.length_eq
      simp at this
    next best rest hr =>
      have hmem : best ∈ (q :: qs).enum := head_sortByKey_mem hr
      have h2 := List.mem_enum_iff_getElem?.mp hmem
      have hlt : best.1 < (q :: qs).length := (List.getElem?_eq_some.mp h2).1
      have hperm := perm_cons_eraseIdx_of_getElem? h2
      have hlen : ((q :: qs).eraseIdx best.1).length < (q :: qs).length := by
        simp only [List.length_eraseIdx, if_pos hlt]
        simp
      exact ((ih _ hlen _ _ rfl).cons best.2).trans hperm.symm

theorem obac_loop_perm (remaining : List Pair) (last_drivers : List ℕ) :
    (obac_loop remaining last_drivers).Perm remaining :=
  obac_loop_perm_aux remaining.length remaining last_drivers rfl

/-! State model: one competition's rows (`models.py`), with the driver's car
number joined onto each `CompetitionDriver` entry. -/

/-- Python truthiness of an optional integer id (`not x` is true for both
`None` and `0`). -/
def truthyN : Option ℕ → Bool
  | none => false
  | some n => decide (n ≠ 0)

/-- Python `entry.qualifying_rank or 9999` (both `None` and `0` fall back). -/
def rank_or_9999 : Option ℕ → ℕ
  | none => 9999
  | some n => if n = 0 then 9999 else n

/-- Row of `models.CompetitionDriver`, with `driver.number` joined in. -/
structure EntryT where
  driver_id : ℕ
  driver_number : ℕ
  group_name : Option String
  qualifying_rank : Option ℕ
  qualifying_score : ℚ
  final_place : Option ℕ
  competition_points : ℚ
  qualifying_points : ℚ
  total_points : ℚ
deriving DecidableEq

/-- Row of `models.Battle`. -/
structure BattleT where
  id : ℕ
  stage : String
  group_name : Option String
  order_index : ℕ
  driver1_id : ℕ
  driver2_id : ℕ
  status : String
  winner_id : Option ℕ
  loser_id : Option ℕ
deriving DecidableEq

/-- Row of `models.BattleRunScore`. -/
structure RunScoreT where
  battle_id : ℕ
  omt_round : ℕ
  run_number : ℕ
  judge_id : ℕ
  driver1_points : ℚ
  driver2_points : ℚ
deriving DecidableEq

/-- Row of `models.QualifyingScore` for a fixed competition. -/
structure QualScoreT where
  driver_id : ℕ
  judge_id : ℕ
  run_number : ℕ
  score : ℚ
deriving DecidableEq

/-- One competition's persisted state: its lifecycle status, assigned judge
ids (`CompetitionJudge` rows), driver entries, battles, battle run scores and
qualifying scores, each table as a list of rows in insertion order. -/
structure CompetitionState where
  status : String
  judges : List ℕ
  entries : List EntryT
  battles : List BattleT
  runScores : List RunScoreT
  qualScores : List QualScoreT
deriving DecidableEq

/-- Source `services.competition_judge_ids` followed by `len(...)`: the number
of distinct judges assigned to the competition. -/
def judge_count (s : CompetitionState) : ℕ :=
  s.judges.dedup.length

/-- Source `services.battle_current_omt_round`: highest overtime round having
any score row for the battle, or 0 when none. -/
def battle_current_omt_round (s : CompetitionState) (battle_id : ℕ) : ℕ :=
  (((s.runScores.filter (fun r => decide (r.battle_id = battle_id))).map
    (fun r => r.omt_round)).foldl max 0)

/-- Source `services.RoundAverages`. -/
structure RoundAverages where
  run1_driver1 : ℚ
  run1_driver2 : ℚ
  run2_driver1 : ℚ
  run2_driver2 : ℚ
  complete : Bool
deriving DecidableEq

/-- Source `services._round_averages`: per-run averages of one battle round;
`complete` iff both runs have exactly one entry per assigned judge. -/
def round_averages (s : CompetitionState) (b : BattleT) (omt_round : ℕ) :
    RoundAverages :=
  let rows := s.runScores.filter
    (fun r => decide (r.battle_id = b.id ∧ r.omt_round = omt_round))
  if rows.isEmpty then ⟨0, 0, 0, 0, false⟩
  else
    let judges_needed := judge_count s
    let run1_rows := rows.filter (fun r => decide (r.run_number = 1))
    let run2_rows := rows.filter (fun r => decide (r.run_number = 2))
    if run1_rows.length ≠ judges_needed ∨ run2_rows.length ≠ judges_needed then
      ⟨0, 0, 0, 0, false⟩
    else
      ⟨average (run1_rows.map (fun r => r.driver1_points)),
       average (run1_rows.map (fun r => r.driver2_points)),
       average (run2_rows.map (fun r => r.driver1_points)),
       average (run2_rows.map (fun r => r.driver2_points)), true⟩

/-- View returned by `services.battle_state` (identity fields omitted). -/
structure BattleView where
  status : String
  winner_id : Option ℕ
  loser_id : Option ℕ
  current_omt_round : ℕ
  next_required_omt_round : ℕ
deriving DecidableEq

/-- Source `services.battle_state`. -/
def battle_state (s : CompetitionState) (b : BattleT) : BattleView :=
  let current_round := battle_current_omt_round s b.id
  let round_data := round_averages s b current_round
  let next_round :=
    if round_data.complete ∧ b.status ≠ "completed" then
      let resolution := resolve_two_run_round round_data.run1_driver1
        round_data.run1_driver2 round_data.run2_driver1 round_data.run2_driver2
      if resolution.winner_slot = none then current_round + 1 else current_round
    else current_round
  ⟨b.status, b.winner_id, b.loser_id, current_round, next_round⟩

/-- Source `services._all_battles_completed`: the competition's battles of the
given stage (optionally restricted to a group) are nonempty and all completed. -/
def all_battles_completed (s : CompetitionState) (stage : String)
    (group_name : Option String) : Bool :=
  let rows := s.battles.filter (fun b => decide (b.stage = stage) &&
    (match group_name with
     | none => true
     | some g => decide (b.group_name = some g)))
  !rows.isEmpty && rows.all (fun b => decide (b.status = "completed"))

/-- Source `services._has_stage`: the competition has at least one battle of
the given stage. -/
def has_stage (s : CompetitionState) (stage : String) : Bool :=
  (s.battles.countP (fun b => decide (b.stage = stage))) > 0

/-- Source `services._battle_decisive_round_scores`: round-level scores of the
round that decided a completed battle, `(0, 0)` otherwise. -/
def battle_decisive_round_scores (s : CompetitionState) (b : BattleT) :
    ℚ × ℚ :=
  if b.status ≠ "completed" then (0, 0)
  else
    let current_round := battle_current_omt_round s b.id
    let round_data := round_averages s b current_round
    if !round_data.complete then (0, 0)
    else
      let resolution := resolve_two_run_round round_data.run1_driver1
        round_data.run1_driver2 round_data.run2_driver1 round_data.run2_driver2
      (resolution.driver1_round_score, resolution.driver2_round_score)

/-- In-progress standings record built by `services.group_standings` (its
`rank`, rounded `point_diff`/`points_for`/`points_against` are only set by the
final enumeration; before that they hold 0). -/
structure Stat where
  driver_id : ℕ
  driver_number : ℕ
  wins : ℕ
  losses : ℕ
  points_for : ℚ
  points_against : ℚ
  qualifying_rank : ℕ
  rank : ℕ
  point_diff : ℚ
deriving DecidableEq

/-- Initial stats record for one entry (`group_standings` loop body). -/
def initStat (e : EntryT) : Stat :=
  { driver_id := e.driver_id, driver_number := e.driver_number, wins := 0,
    losses := 0, points_for := 0, points_against := 0,
    qualifying_rank := rank_or_9999 e.qualifying_rank, rank := 0,
    point_diff := 0 }

/-- Python dict insertion keyed by `driver_id`: replace in place if the key
exists, else append (dicts preserve insertion order). -/
def insertStat (l : List Stat) (st : Stat) : List Stat :=
  if l.any (fun x => decide (x.driver_id = st.driver_id)) then
    l.map (fun x => if x.driver_id = st.driver_id then st else x)
  else l ++ [st]

/-- The `stats` dict of `services.group_standings` after the entry loop. -/
def init_stats (entries : List EntryT) : List Stat :=
  entries.foldl (fun acc e => insertStat acc (initStat e)) []

/-- Python `stats[d][field] += ...`: update the record with the given key. -/
def updStat (l : List Stat) (d : ℕ) (f : Stat → Stat) : List Stat :=
  l.map (fun x => if x.driver_id = d then f x else x)

/-- Battle loop body of `services.group_standings`: skip battles that are not
completed or lack a truthy winner/loser, otherwise accumulate the win, the
loss, and the decisive round scores for and against each slot. -/
def apply_battle (s : CompetitionState) (stats : List Stat) (b : BattleT) :
    List Stat :=
  if b.status ≠ "completed" ∨ ¬ truthyN b.winner_id ∨ ¬ truthyN b.loser_id then
    stats
  else
    let stats1 := updStat stats (b.winner_id.getD 0)
      (fun st => { st with wins := st.wins + 1 })
    let stats2 := updStat stats1 (b.loser_id.getD 0)
      (fun st => { st with losses := st.losses + 1 })
    let ds := battle_decisive_round_scores s b
    let stats3 := updStat stats2 b.driver1_id
      (fun st => { st with points_for := st.points_for + ds.1,
                           points_against := st.points_against + ds.2 })
    updStat stats3 b.driver2_id
      (fun st => { st with points_for := st.points_for + ds.2,
                           points_against := st.points_against + ds.1 })

/-- Sort key of `services.group_standings`: wins descending, point
differential descending, points-for descending, qualifying rank ascending,
car number ascending. -/
def standings_key (st : Stat) : ℤ ×ₗ ℚ ×ₗ ℚ ×ₗ ℕ ×ₗ ℕ :=
  toLex (-(st.wins : ℤ), toLex (-(st.points_for - st.points_against),
    toLex (-st.points_for, toLex (st.qualifying_rank, st.driver_number))))

/-- Source `services.group_standings`. -/
def group_standings (s : CompetitionState) (group_name : String) :
    List Stat :=
  let entries := s.entries.filter (fun e => decide (e.group_name = some group_name))
  if entries.isEmpty then []
  else
    let stats := init_stats entries
    let battles := s.battles.filter (fun b =>
      decide (b.stage = "group") && decide (b.group_name = some group_name))
    let ranked := sortByKey standings_key (battles.foldl (apply_battle s) stats)
    ranked.enum.map (fun p =>
      { p.2 with rank := p.1 + 1,
                 point_diff := round_score (p.2.points_for - p.2.points_against),
                 points_for := round_score p.2.points_for,
                 points_against := round_score p.2.points_against })

/-- Next free battle id, standing in for the autoincrement primary key. -/
def fresh_battle_id (s : CompetitionState) : ℕ :=
  (s.battles.map (fun b => b.id)).foldl max 0 + 1

/-- Source `services._try_create_semifinals`: once every group battle of both
groups is completed and no semifinal exists, create SF1 = (A rank 1) vs
(B rank 2) and SF2 = (B rank 1) vs (A rank 2). -/
def try_create_semifinals (s : CompetitionState) : CompetitionState × Bool :=
  if has_stage s "semifinal" then (s, false)
  else if ¬ all_battles_completed s "group" (some "A") then (s, false)
  else if ¬ all_battles_completed s "group" (some "B") then (s, false)
  else
    match group_standings s "A", group_standings s "B" with
    | a1 :: a2 :: _, b1 :: b2 :: _ =>
      let sf1 : BattleT :=
        { id := fresh_battle_id s, stage := "semifinal", group_name := none,
          order_index := 1, driver1_id := a1.driver_id,
          driver2_id := b2.driver_id, status := "pending",
          winner_id := none, loser_id := none }
      let sf2 : BattleT :=
        { id := fresh_battle_id s + 1, stage := "semifinal", group_name := none,
          order_index := 2, driver1_id := b1.driver_id,
          driver2_id := a2.driver_id, status := "pending",
          winner_id := none, loser_id := none }
      ({ s with battles := s.battles ++ [sf1, sf2] }, true)
    | _, _ => (s, false)

/-- Source `services._try_create_final_and_third_place`. -/
def try_create_final_and_third_place (s : CompetitionState) :
    CompetitionState × Bool :=
  if ¬ has_stage s "semifinal" then (s, false)
  else if ¬ all_battles_completed s "semifinal" none then (s, false)
  else if has_stage s "final" ∨ has_stage s "third_place" then (s, false)
  else
    match sortByKey (fun b : BattleT => b.order_index)
      (s.battles.filter (fun b => decide (b.stage = "semifinal"))) with
    | [sf1, sf2] =>
      if truthyN sf1.winner_id ∧ truthyN sf1.loser_id ∧
          truthyN sf2.winner_id ∧ truthyN sf2.loser_id then
        let third : BattleT :=
          { id := fresh_battle_id s, stage := "third_place", group_name := none,
            order_index := 1, driver1_id := sf1.loser_id.getD 0,
            driver2_id := sf2.loser_id.getD 0, status := "pending",
            winner_id := none, loser_id := none }
        let final : BattleT :=
          { id := fresh_battle_id s + 1, stage := "final", group_name := none,
            order_index := 1, driver1_id := sf1.winner_id.getD 0,
            driver2_id := sf2.winner_id.getD 0, status := "pending",
            winner_id := none, loser_id := none }
        ({ s with battles := s.battles ++ [third, final] }, true)
      else (s, false)
    | _ => (s, false)

/-- Association-list insert with Python dict semantics (replace in place or
append). -/
def insertAL (l : List (ℕ × ℕ)) (k v : ℕ) : List (ℕ × ℕ) :=
  if l.any (fun p => decide (p.1 = k)) then
    l.map (fun p => if p.1 = k then (k, v) else p)
  else l ++ [(k, v)]

/-- Association-list lookup (`dict.get` / `in` check on unique keys). -/
def lookupAL (l : List (ℕ × ℕ)) (k : ℕ) : Option ℕ :=
  (l.find? (fun p => decide (p.1 = k))).map (fun p => p.2)

/-- Source `services._remaining_order_after_top4`: merged group standings
minus the excluded drivers, ordered by within-group rank, then qualifying
rank, then car number. -/
def remaining_order_after_top4 (s : CompetitionState)
    (excluded_driver_ids : List ℕ) : List ℕ :=
  let merged := (group_standings s "A" ++ group_standings s "B").filter
    (fun row => !excluded_driver_ids.contains row.driver_id)
  (sortByKey (fun row : Stat =>
    toLex (row.rank, toLex (row.qualifying_rank, row.driver_number))) merged).map
    (fun row => row.driver_id)

/-- The `place_map` dict of `services._finalize_competition_if_ready`: top-4
placements from the final and third-place battles, then 5.. for the remaining
drivers in merged-standings order. -/
def finalize_place_map (s : CompetitionState) (fb tb : BattleT) :
    List (ℕ × ℕ) :=
  let place0 := insertAL (insertAL (insertAL (insertAL []
    (fb.winner_id.getD 0) 1) (fb.loser_id.getD 0) 2) (tb.winner_id.getD 0) 3)
    (tb.loser_id.getD 0) 4
  let taken := place0.map (fun p => p.1)
  let remainder := remaining_order_after_top4 s taken
  (remainder.foldl (fun acc d => (insertAL acc.1 d acc.2, acc.2 + 1))
    (place0, 5)).1

/-- Entry update of the finalisation loop body. -/
def finalizeEntry (place_map : List (ℕ × ℕ)) (e : EntryT) : EntryT :=
  match lookupAL place_map e.driver_id with
  | none => e
  | some place =>
    let q_rank := rank_or_9999 e.qualifying_rank
    let q_bonus := qualifying_bonus_for_rank q_rank
    let q_points := round_score (e.qualifying_score + (q_bonus : ℚ))
    let c_points := round_score ((competition_points_for_place place : ℚ))
    { e with final_place := some place, competition_points := c_points,
             qualifying_points := q_points,
             total_points := round_score (c_points + q_points) }

/-- Source `services._finalize_competition_if_ready`. -/
def finalize_competition_if_ready (s : CompetitionState) :
    CompetitionState × Bool :=
  if s.status = "completed" then (s, false)
  else if ¬ all_battles_completed s "final" none then (s, false)
  else if ¬ all_battles_completed s "third_place" none then (s, false)
  else
    match s.battles.find? (fun b => decide (b.stage = "final")),
      s.battles.find? (fun b => decide (b.stage = "third_place")) with
    | some fb, some tb =>
      if truthyN fb.winner_id ∧ truthyN fb.loser_id ∧
          truthyN tb.winner_id ∧ truthyN tb.loser_id then
        let place_map := finalize_place_map s fb tb
        ({ s with entries := s.entries.map (finalizeEntry place_map),
                  status := "completed" }, true)
      else (s, false)
    | _, _ => (s, false)

/-- Flags returned by `services.try_progress_competition`. -/
structure ProgressFlags where
  created_semifinals : Bool
  created_finals : Bool
  finalized_competition : Bool
deriving DecidableEq

/-- Source `services.try_progress_competition`: evaluate the three progression
triggers in order. -/
def try_progress_competition (s : CompetitionState) :
    CompetitionState × ProgressFlags :=
  let p1 := try_create_semifinals s
  let p2 := try_create_final_and_third_place p1.1
  let p3 := finalize_competition_if_ready p2.1
  (p3.1, ⟨p1.2, p2.2, p3.2⟩)

/-- Source `services.get_battle_or_404` (`db.get` on the primary key). -/
def get_battle (s : CompetitionState) (battle_id : ℕ) : Option BattleT :=
  s.battles.find? (fun b => decide (b.id = battle_id))

/-- Upsert of a `BattleRunScore` row by its unique key. -/
def upsert_run_row (s : CompetitionState) (battle_id omt_round run_number
    judge_id : ℕ) (d1 d2 : ℚ) : CompetitionState :=
  if s.runScores.any (fun r => decide (r.battle_id = battle_id ∧
      r.omt_round = omt_round ∧ r.run_number = run_number ∧
      r.judge_id = judge_id)) then
    { s with runScores := s.runScores.map (fun r =>
        if r.battle_id = battle_id ∧ r.omt_round = omt_round ∧
            r.run_number = run_number ∧ r.judge_id = judge_id then
          { r with driver1_points := d1, driver2_points := d2 }
        else r) }
  else
    { s with runScores := s.runScores ++
        [⟨battle_id, omt_round, run_number, judge_id, d1, d2⟩] }

/-- Battle status/winner/loser update when a round resolves decisively. -/
def set_battle_result (s : CompetitionState) (battle_id winner loser : ℕ) :
    CompetitionState :=
  { s with battles := s.battles.map (fun b =>
      if b.id = battle_id then
        { b with winner_id := some winner, loser_id := some loser,
                 status := "completed" }
      else b) }

/-- The `max_allowed` round of `services.upsert_battle_run_score`: current
round, plus one when the current round is complete and tied. -/
def max_allowed_round (s : CompetitionState) (battle : BattleT) : ℕ :=
  let current := battle_current_omt_round s battle.id
  let current_round_data := round_averages s battle current
  if current_round_data.complete then
    let resolution := resolve_two_run_round current_round_data.run1_driver1
      current_round_data.run1_driver2 current_round_data.run2_driver1
      current_round_data.run2_driver2
    if resolution.winner_slot = none then current + 1 else current
  else current

/-- Source `services.upsert_battle_run_score`: validate, upsert the score row,
settle the submitted round (possibly completing the battle), then run the
progression check.  Validation failures raise before any write, so an error
carries no state. -/
def upsert_battle_run_score (s : CompetitionState) (battle_id judge_id
    omt_round run_number : ℕ) (driver1_points driver2_points : ℚ) :
    Except String CompetitionState :=
  match get_battle s battle_id with
  | none => .error ("Battle not found")
  | some battle =>
    if battle.status = "completed" then .error ("Battle already completed")
    else
      let d1 := round_score driver1_points
      let d2 := round_score driver2_points
      if |d1 + d2 - 10| > 1 / 1000000000 then
        .error ("Judge points must sum to exactly 10")
      else if judge_id ∉ s.judges then
        .error ("Judge not assigned to battle competition")
      else
        let max_allowed := max_allowed_round s battle
        if omt_round > max_allowed then
          .error ("OMT round " ++ toString omt_round ++
            " is not open yet. Next available is " ++ toString max_allowed)
        else
          let s1 := upsert_run_row s battle.id omt_round run_number judge_id d1 d2
          let round_data := round_averages s1 battle omt_round
          let s2 :=
            if round_data.complete then
              let resolution := resolve_two_run_round round_data.run1_driver1
                round_data.run1_driver2 round_data.run2_driver1
                round_data.run2_driver2
              match resolution.winner_slot with
              | some slot =>
                if slot = 1 then
                  set_battle_result s1 battle.id battle.driver1_id battle.driver2_id
                else
                  set_battle_result s1 battle.id battle.driver2_id battle.driver1_id
              | none => s1
            else s1
          .ok (try_progress_competition s2).1

/-- Leaderboard row built by `services.qualifying_leaderboard` (`rank` is
assigned by the final enumeration; before that it holds 0). -/
structure QualItem where
  driver_id : ℕ
  driver_number : ℕ
  run1_avg : ℚ
  run2_avg : ℚ
  qualifying_score : ℚ
  second_best_run : ℚ
  is_complete : Bool
  rank : ℕ
deriving DecidableEq

/-- Judge scores recorded for one driver and run, in insertion order. -/
def qual_run_values (s : CompetitionState) (driver_id run_number : ℕ) :
    List ℚ :=
  (s.qualScores.filter (fun q => decide (q.driver_id = driver_id ∧
    q.run_number = run_number))).map (fun q => q.score)

/-- Pre-sort leaderboard item of `services.qualifying_leaderboard` for one
entry. -/
def qual_item (s : CompetitionState) (e : EntryT) : QualItem :=
  let run1_values := qual_run_values s e.driver_id 1
  let run2_values := qual_run_values s e.driver_id 2
  let run1_avg := if run1_values.isEmpty then 0
    else round_score (average run1_values)
  let run2_avg := if run2_values.isEmpty then 0
    else round_score (average run2_values)
  let present_avgs := (if run1_values.isEmpty then [] else [run1_avg]) ++
    (if run2_values.isEmpty then [] else [run2_avg])
  let total := if present_avgs.isEmpty then 0 else listMax present_avgs
  let second_best := if present_avgs.length = 2 then listMin present_avgs else 0
  let is_complete := judge_count s > 0 ∧
    run1_values.length = judge_count s ∧ run2_values.length = judge_count s
  { driver_id := e.driver_id, driver_number := e.driver_number,
    run1_avg := round_score run1_avg, run2_avg := round_score run2_avg,
    qualifying_score := round_score total,
    second_best_run := round_score second_best,
    is_complete := is_complete, rank := 0 }

/-- Sort key of `services.qualifying_leaderboard`: qualifying score, second
best run, run-2 average, run-1 average (all descending), car number
ascending. -/
def qual_key (x : QualItem) : ℚ ×ₗ ℚ ×ₗ ℚ ×ₗ ℚ ×ₗ ℕ :=
  toLex (-x.qualifying_score, toLex (-x.second_best_run,
    toLex (-x.run2_avg, toLex (-x.run1_avg, x.driver_number))))

/-- Source `services.qualifying_leaderboard`. -/
def qualifying_leaderboard (s : CompetitionState) : List QualItem :=
  if s.entries.isEmpty then []
  else
    let items := s.entries.map (qual_item s)
    let sorted := sortByKey qual_key items
    sorted.enum.map (fun p => { p.2 with rank := p.1 + 1 })

/-! Classification aggregation (`services.global_classification_standings`)
over several competitions of one classification. -/

/-- A `CompetitionDriver` row as seen by the classification aggregation, with
its competition id and the driver's car number. -/
structure ClassEntry where
  competition_id : ℕ
  driver_id : ℕ
  driver_number : ℕ
  total_points : ℚ
  final_place : Option ℕ
deriving DecidableEq

/-- A classification with its competitions' statuses and entries. -/
structure ClassificationState where
  is_closed : Bool
  competitions : List (ℕ × String)
  entries : List ClassEntry
deriving DecidableEq

/-- Standings row of `services.global_classification_standings` (`rank` is
assigned by the final enumeration). -/
structure ClassRow where
  driver_id : ℕ
  driver_number : ℕ
  competitions_count : ℕ
  raw_total_points : ℚ
  effective_total_points : ℚ
  drop_lowest_applied : Bool
  rank : ℕ
deriving DecidableEq

/-- Entries of the classification's completed competitions, in row order. -/
def class_completed_entries (c : ClassificationState) : List ClassEntry :=
  let completed_ids := (c.competitions.filter
    (fun p => decide (p.2 = "completed"))).map (fun p => p.1)
  c.entries.filter (fun e => completed_ids.contains e.competition_id)

/-- Per-driver total points in completed competitions, in row order. -/
def class_scores (c : ClassificationState) (driver_id : ℕ) : List ℚ :=
  ((class_completed_entries c).filter
    (fun e => decide (e.driver_id = driver_id))).map (fun e => e.total_points)

/-- Pre-sort standings row for one driver. -/
def class_row (c : ClassificationState) (driver_id : ℕ) : ClassRow :=
  let scores := class_scores c driver_id
  let raw_total := scores.sum
  let applied := if c.is_closed then total_after_drop_lowest_once scores
    else raw_total
  let number := (((class_completed_entries c).find?
    (fun e => decide (e.driver_id = driver_id))).map
    (fun e => e.driver_number)).getD 0
  { driver_id := driver_id, driver_number := number,
    competitions_count := scores.length,
    raw_total_points := round_score raw_total,
    effective_total_points := round_score applied,
    drop_lowest_applied := c.is_closed ∧ scores.length > 1, rank := 0 }

/-- Sort key of `services.global_classification_standings`: effective total
descending, raw total descending, car number ascending. -/
def class_key (r : ClassRow) : ℚ ×ₗ ℚ ×ₗ ℕ :=
  toLex (-r.effective_total_points, toLex (-r.raw_total_points,
    r.driver_number))

/-- Source `services.global_classification_standings`. -/
def global_classification_standings (c : ClassificationState) :
    List ClassRow :=
  let completed := c.competitions.filter (fun p => decide (p.2 = "completed"))
  if completed.isEmpty then []
  else
    let entries := class_completed_entries c
    if entries.isEmpty then []
    else
      let driver_ids := dedupFirst (entries.map (fun e => e.driver_id))
      let rows := driver_ids.map (class_row c)
      let sorted := sortByKey class_key rows
      sorted.enum.map (fun p => { p.2 with rank := p.1 + 1 })

/-! Helper lemmas. -/

/-- Whether an `Except` result is a success. -/
def isOk {ε α : Type} : Except ε α → Bool
  | .ok _ => true
  | .error _ => false

theorem foldl_min_mem (xs : List ℚ) : ∀ x : ℚ, xs.foldl min x ∈ x :: xs := by
  induction xs with
  | nil => intro x; simp
  | cons y ys ih =>
    intro x
    have h2 := ih (min x y)
    simp only [List.foldl_cons]
    rcases List.mem_cons.mp h2 with h3 | h3
    · rcases min_choice x y with h4 | h4
      · rw [h3, h4]; exact List.mem_cons_self _ _
      · rw [h3, h4]; exact List.mem_cons_of_mem _ (List.mem_cons_self _ _)
    · exact List.mem_cons_of_mem _ (List.mem_cons_of_mem _ h3)

theorem listMin_mem {l : List ℚ} (h : l ≠ []) : listMin l ∈ l := by
  cases l with
  | nil => exact absurd rfl h
  | cons x xs => exact foldl_min_mem xs x

theorem total_after_drop_eq_sum_erase {scores : List ℚ}
    (h : 1 < scores.length) :
    total_after_drop_lowest_once scores =
      (scores.erase (listMin scores)).sum := by
  match scores with
  | [] => simp at h
  | [x] => simp at h
  | x :: y :: rest =>
    have hmem : listMin (x :: y :: rest) ∈ x :: y :: rest :=
      listMin_mem (by simp)
    have h2 := List.sum_erase hmem
    rw [total_after_drop_lowest_once]
    linarith

theorem total_after_drop_eq_sum {scores : List ℚ} (h : scores.length ≤ 1) :
    total_after_drop_lowest_once scores = scores.sum := by
  match scores with
  | [] => rfl
  | [x] => simp [total_after_drop_lowest_once]
  | x :: y :: rest => simp at h

theorem get_enum_map {α : Type} (f : ℕ × α → α) (l : List α) (i : ℕ)
    (h : i < (l.enum.map f).length) :
    (l.enum.map f).get ⟨i, h⟩ = f (i, l.get ⟨i, by simpa using h⟩) := by
  simp [List.get_eq_getElem, List.getElem_map, List.getElem_enum]

theorem sorted_enum_map {α β : Type} [LinearOrder β] {k : α → β}
    (f : ℕ × α → α) (l : List α)
    (hk : ∀ i a, k (f (i, a)) = k a)
    (hs : List.Sorted (keyLe k) l) :
    List.Sorted (keyLe k) (l.enum.map f) := by
  rw [List.Sorted, List.pairwise_iff_getElem] at hs ⊢
  intro i j hi hj hij
  have hi2 : i < l.length := by simpa using hi
  have hj2 : j < l.length := by simpa using hj
  have h3 := hs i j hi2 hj2 hij
  simpa [List.getElem_map, List.getElem_enum, keyLe, hk] using h3

/-! Claim theorems. -/

/-- Claim C10: for every input list of pairs,
`order_battles_avoid_consecutive` returns a permutation of that list — same
length, same multiset of pairs, no pair dropped, duplicated, or altered. -/
theorem order_battles_avoid_consecutive_perm (pairs : List Pair) :
    (order_battles_avoid_consecutive pairs).Perm pairs :=
  obac_loop_perm pairs []

/-- Claim C6: every battle run score submission whose rounded points do not
sum to 10 within 1e-9 is rejected, whatever the rest of the input is; a
rejection returns an error and no successor state, so no score row is created
or updated. -/
theorem upsert_sum_guard (s : CompetitionState)
    (battle_id judge_id omt_round run_number : ℕ) (d1 d2 : ℚ)
    (h : |round_score d1 + round_score d2 - 10| > 1 / 1000000000) :
    isOk (upsert_battle_run_score s battle_id judge_id omt_round run_number
      d1 d2) = false := by
  unfold upsert_battle_run_score
  cases get_battle s battle_id with
  | none => rfl
  | some battle =>
    by_cases hc : battle.status = "completed"
    · simp [hc, isOk]
    · simp only [gt_iff_lt, one_div] at h
      simp [hc, h, isOk]

/-- Witness for C6 at a concrete input (scores 3 and 4 sum to 7). -/
theorem upsert_sum_guard_witness :
    |round_score 3 + round_score 4 - 10| > 1 / 1000000000 ∧
    isOk (upsert_battle_run_score ⟨"tournament", [], [], [], [], []⟩
      1 1 0 1 3 4) = false :=
  ⟨by with_unfolding_all decide,
   upsert_sum_guard ⟨"tournament", [], [], [], [], []⟩ 1 1 0 1 3 4
     (by with_unfolding_all decide)⟩

/-- Claim C5: a battle run score submission to an already-completed battle
fails, and a submission that passes the sum and judge checks but targets an
overtime round above `max_allowed_round` (current round, plus one only when
the current round is fully scored and tied) fails with the "not open yet"
error; a failed submission returns an error and no successor state, so it
stores no score. -/
theorem upsert_guard_spec (s : CompetitionState)
    (battle_id judge_id omt_round run_number : ℕ) (d1 d2 : ℚ)
    (battle : BattleT) (hfind : get_battle s battle_id = some battle) :
    (battle.status = "completed" →
      upsert_battle_run_score s battle_id judge_id omt_round run_number d1 d2 =
        .error ("Battle already completed")) ∧
    (battle.status ≠ "completed" →
      |round_score d1 + round_score d2 - 10| ≤ 1 / 1000000000 →
      judge_id ∈ s.judges →
      omt_round > max_allowed_round s battle →
      upsert_battle_run_score s battle_id judge_id omt_round run_number d1 d2 =
        .error ("OMT round " ++ toString omt_round ++
          " is not open yet. Next available is " ++
          toString (max_allowed_round s battle))) := by
  constructor
  · intro hc
    unfold upsert_battle_run_score
    rw [hfind]
    simp [hc]
  · intro hc hsum hjudge hround
    unfold upsert_battle_run_score
    rw [hfind]
    have hsum2 : ¬ (1 / 1000000000 : ℚ) < |round_score d1 + round_score d2 - 10| :=
      not_lt.mpr hsum
    simp only [gt_iff_lt] at hround
    simp only [one_div] at hsum2
    simp [hc, hsum2, hjudge, hround]

/-- Concrete state for the C5 witness: battle 1 already completed, battle 2
pending with no scores (so its `max_allowed_round` is 0). -/
def stateC5 : CompetitionState :=
  ⟨"tournament", [7],
   [⟨1, 10, some "A", some 1, 95, none, 0, 0, 0⟩,
    ⟨3, 30, some "A", some 3, 85, none, 0, 0, 0⟩],
   [⟨1, "group", some "A", 1, 1, 3, "completed", some 1, some 3⟩,
    ⟨2, "group", some "A", 2, 1, 3, "pending", none, none⟩],
   [], []⟩

/-- Witness for C5: both failure modes at concrete inputs. -/
theorem upsert_guard_spec_witness :
    (upsert_battle_run_score stateC5 1 7 0 1 6 4 =
      .error ("Battle already completed")) ∧
    (upsert_battle_run_score stateC5 2 7 1 1 6 4 =
      .error ("OMT round 1 is not open yet. Next available is 0")) :=
  ⟨(upsert_guard_spec stateC5 1 7 0 1 6 4
      ⟨1, "group", some "A", 1, 1, 3, "completed", some 1, some 3⟩
      (by with_unfolding_all rfl)).1 (by with_unfolding_all rfl),
   (upsert_guard_spec stateC5 2 7 1 1 6 4
      ⟨2, "group", some "A", 2, 1, 3, "pending", none, none⟩
      (by with_unfolding_all rfl)).2
     (by with_unfolding_all decide) (by with_unfolding_all decide)
     (by with_unfolding_all decide) (by with_unfolding_all decide)⟩

theorem mem_rank_map {α : Type} (f : ℕ × α → α) (l : List α) (x : α)
    (hx : x ∈ l.enum.map f) : ∃ p : ℕ × α, p.2 ∈ l ∧ x = f p := by
  obtain ⟨p, hp, hfp⟩ := List.mem_map.mp hx
  refine ⟨p, ?_, hfp.symm⟩
  have h2 := List.mem_enum_iff_getElem?.mp hp
  obtain ⟨hlt, hget⟩ := List.getElem?_eq_some.mp h2
  rw [← hget]
  exact List.getElem_mem hlt

/-- Claim C8: in classification standings over the classification's completed
competitions, each row's raw total is the rounded sum of that driver's
per-competition total points; the effective total drops exactly one
occurrence of the minimum result iff the classification is closed and the
driver has more than one result, and equals the raw total otherwise; and rows
are ranked (dense rank = position + 1) sorted by effective total descending,
raw total descending, car number ascending (`class_key`). -/
theorem classification_standings_spec (c : ClassificationState) :
    (∀ row ∈ global_classification_standings c,
      row.raw_total_points = round_score (class_scores c row.driver_id).sum ∧
      (c.is_closed = true ∧ 1 < (class_scores c row.driver_id).length →
        row.effective_total_points = round_score
          (((class_scores c row.driver_id).erase
            (listMin (class_scores c row.driver_id))).sum)) ∧
      (¬ (c.is_closed = true ∧ 1 < (class_scores c row.driver_id).length) →
        row.effective_total_points =
          round_score (class_scores c row.driver_id).sum)) ∧
    List.Sorted (keyLe class_key) (global_classification_standings c) ∧
    ∀ i (h : i < (global_classification_standings c).length),
      ((global_classification_standings c).get ⟨i, h⟩).rank = i + 1 := by
  have hchar : global_classification_standings c = [] ∨
      global_classification_standings c =
        (sortByKey class_key ((dedupFirst ((class_completed_entries c).map
          (fun e => e.driver_id))).map (class_row c))).enum.map
          (fun p => { p.2 with rank := p.1 + 1 }) := by
    unfold global_classification_standings class_completed_entries
    dsimp only
    split
    · exact Or.inl rfl
    · split
      · exact Or.inl rfl
      · exact Or.inr rfl
  have hkeep : ∀ (p : ℕ × ClassRow),
      class_key { p.2 with rank := p.1 + 1 } = class_key p.2 := by
    intro p; rfl
  rcases hchar with h | h
  · rw [h]
    refine ⟨by simp, by simp, ?_⟩
    intro i hi
    simp at hi
  · rw [h]
    refine ⟨?_, ?_, ?_⟩
    · intro row hrow
      obtain ⟨p, hp2, hpf⟩ := mem_rank_map _ _ _ hrow
      have hmem := (sortByKey_perm class_key _).mem_iff.mp hp2
      obtain ⟨d, _, hpd⟩ := List.mem_map.mp hmem
      have hq : row.driver_id = d := by
        rw [hpf, ← hpd]; rfl
      have hraw : row.raw_total_points = (class_row c d).raw_total_points := by
        rw [hpf, ← hpd]
      have heff : row.effective_total_points =
          (class_row c d).effective_total_points := by
        rw [hpf, ← hpd]
      rw [hq, hraw, heff]
      refine ⟨by simp [class_row], ?_, ?_⟩
      · rintro ⟨hclosed, hlen⟩
        simp only [class_row, hclosed, if_true]
        rw [total_after_drop_eq_sum_erase hlen]
      · intro hnot
        by_cases hclosed : c.is_closed = true
        · have hlen : (class_scores c d).length ≤ 1 := by
            by_contra hcon
            exact hnot ⟨hclosed, by omega⟩
          simp only [class_row, hclosed, if_true]
          rw [total_after_drop_eq_sum hlen]
        · simp only [class_row, Bool.not_eq_true] at hclosed ⊢
          simp [hclosed]
    · exact sorted_enum_map _ _ (fun i a => hkeep (i, a))
        (sortByKey_sorted class_key _)
    · intro i hi
      rw [get_enum_map]

/-- Concrete classification for the C8 witness: closed, one driver with
results 50, 80, 80 across three completed competitions. -/
def classC8 : ClassificationState :=
  ⟨true, [(1, "completed"), (2, "completed"), (3, "completed")],
   [⟨1, 5, 55, 50, some 1⟩, ⟨2, 5, 55, 80, some 1⟩, ⟨3, 5, 55, 80, some 1⟩]⟩

/-- Witness for C8: the driver's effective total 160 drops exactly one
occurrence of the minimum 50 from raw total 210. -/
theorem classification_standings_spec_witness :
    (⟨5, 55, 3, 210, 160, true, 1⟩ : ClassRow) ∈
      global_classification_standings classC8 ∧
    (classC8.is_closed = true ∧ 1 < (class_scores classC8 5).length) ∧
    (⟨5, 55, 3, 210, 160, true, 1⟩ : ClassRow).effective_total_points =
      round_score (((class_scores classC8 5).erase
        (listMin (class_scores classC8 5))).sum) :=
  ⟨by with_unfolding_all decide,
   ⟨rfl, by with_unfolding_all decide⟩,
   ((classification_standings_spec classC8).1 ⟨5, 55, 3, 210, 160, true, 1⟩
     (by with_unfolding_all decide)).2.1
     ⟨rfl, by with_unfolding_all decide⟩⟩

/-- Claim-side qualifying score: the maximum of the run averages that are
present — a missing run is absent (not zero), and the score is never the mean
of the two runs. -/
def spec_qualifying_score (run1_values run2_values : List ℚ) : ℚ :=
  if run1_values.isEmpty then
    (if run2_values.isEmpty then 0 else round_score (average run2_values))
  else if run2_values.isEmpty then round_score (average run1_values)
  else max (round_score (average run1_values)) (round_score (average run2_values))

theorem qual_item_score (s : CompetitionState) (e : EntryT) :
    (qual_item s e).qualifying_score = round_score (spec_qualifying_score
      (qual_run_values s e.driver_id 1) (qual_run_values s e.driver_id 2)) := by
  by_cases h1 : (qual_run_values s e.driver_id 1).isEmpty <;>
    by_cases h2 : (qual_run_values s e.driver_id 2).isEmpty <;>
    simp [qual_item, spec_qualifying_score, h1, h2, listMax]

/-- Claim C7: every qualifying leaderboard row's qualifying score is the
maximum of the present run averages (a missing run counts as absent, never
zero, and the score is never the mean of the two runs), and rows are sorted
by qualifying score, second best, run-2 average, run-1 average descending
with car number ascending as the final tiebreak (`qual_key`), with rank =
position + 1. -/
theorem qualifying_leaderboard_spec (s : CompetitionState) :
    (∀ item ∈ qualifying_leaderboard s,
      ∃ e ∈ s.entries, item.driver_id = e.driver_id ∧
        item.qualifying_score = round_score (spec_qualifying_score
          (qual_run_values s e.driver_id 1)
          (qual_run_values s e.driver_id 2))) ∧
    List.Sorted (keyLe qual_key) (qualifying_leaderboard s) ∧
    ∀ i (h : i < (qualifying_leaderboard s).length),
      ((qualifying_leaderboard s).get ⟨i, h⟩).rank = i + 1 := by
  have hchar : qualifying_leaderboard s = [] ∨
      qualifying_leaderboard s =
        (sortByKey qual_key (s.entries.map (qual_item s))).enum.map
          (fun p => { p.2 with rank := p.1 + 1 }) := by
    unfold qualifying_leaderboard
    dsimp only
    split
    · exact Or.inl rfl
    · exact Or.inr rfl
  have hkeep : ∀ (p : ℕ × QualItem),
      qual_key { p.2 with rank := p.1 + 1 } = qual_key p.2 := by
    intro p; rfl
  rcases hchar with h | h
  · rw [h]
    refine ⟨by simp, by simp, ?_⟩
    intro i hi
    simp at hi
  · rw [h]
    refine ⟨?_, ?_, ?_⟩
    · intro item hitem
      obtain ⟨p, hp2, hpf⟩ := mem_rank_map _ _ _ hitem
      have hmem := (sortByKey_perm qual_key _).mem_iff.mp hp2
      obtain ⟨e, he, hpe⟩ := List.mem_map.mp hmem
      refine ⟨e, he, ?_, ?_⟩
      · rw [hpf, ← hpe]; rfl
      · have : item.qualifying_score = (qual_item s e).qualifying_score := by
          rw [hpf, ← hpe]
        rw [this, qual_item_score]
    · exact sorted_enum_map _ _ (fun i a => hkeep (i, a))
        (sortByKey_sorted qual_key _)
    · intro i hi
      rw [get_enum_map]

/-- Concrete state for the C7 witness: two judges each scoring driver 1 with
95.126 on run 1 and 80.124 on run 2. -/
def stateC7 : CompetitionState :=
  ⟨"qualifying", [1, 2], [⟨1, 10, none, none, 0, none, 0, 0, 0⟩], [], [],
   [⟨1, 1, 1, 95.126⟩, ⟨1, 2, 1, 95.126⟩, ⟨1, 1, 2, 80.124⟩, ⟨1, 2, 2, 80.124⟩]⟩

/-- Witness for C7: the row rounds run 1 to 95.13 and run 2 to 80.12, and its
qualifying score is the best run 95.13, not the mean 87.625. -/
theorem qualifying_leaderboard_spec_witness :
    (⟨1, 10, 95.13, 80.12, 95.13, 80.12, true, 1⟩ : QualItem) ∈
      qualifying_leaderboard stateC7 ∧
    (∃ e ∈ stateC7.entries,
      (⟨1, 10, 95.13, 80.12, 95.13, 80.12, true, 1⟩ : QualItem).driver_id =
        e.driver_id ∧
      (⟨1, 10, 95.13, 80.12, 95.13, 80.12, true, 1⟩ : QualItem).qualifying_score =
        round_score (spec_qualifying_score
          (qual_run_values stateC7 e.driver_id 1)
          (qual_run_values stateC7 e.driver_id 2))) :=
  have hlb : qualifying_leaderboard stateC7 =
      [⟨1, 10, 95.13, 80.12, 95.13, 80.12, true, 1⟩] := by
    with_unfolding_all rfl
  ⟨by rw [hlb]; exact List.mem_cons_self _ _,
   (qualifying_leaderboard_spec stateC7).1
     ⟨1, 10, 95.13, 80.12, 95.13, 80.12, true, 1⟩
     (by rw [hlb]; exact List.mem_cons_self _ _)⟩

/-! Characterisation of the three progression triggers: each step either
leaves the state unchanged with a false flag, or fires, and its flag equals
an explicit guard predicate. -/

/-- Guard of `_try_create_semifinals`: no semifinal yet, both groups' battles
completed, at least two ranked drivers per group. -/
def semis_ready (s : CompetitionState) : Bool :=
  !has_stage s "semifinal" &&
  all_battles_completed s "group" (some "A") &&
  all_battles_completed s "group" (some "B") &&
  decide (2 ≤ (group_standings s "A").length) &&
  decide (2 ≤ (group_standings s "B").length)

/-- Guard of `_try_create_final_and_third_place`. -/
def finals_ready (s : CompetitionState) : Bool :=
  has_stage s "semifinal" &&
  all_battles_completed s "semifinal" none &&
  !has_stage s "final" && !has_stage s "third_place" &&
  (match sortByKey (fun b : BattleT => b.order_index)
      (s.battles.filter (fun b => decide (b.stage = "semifinal"))) with
   | [sf1, sf2] => decide (truthyN sf1.winner_id ∧ truthyN sf1.loser_id ∧
       truthyN sf2.winner_id ∧ truthyN sf2.loser_id)
   | _ => false)

/-- Guard of `_finalize_competition_if_ready`. -/
def fin_ready (s : CompetitionState) : Bool :=
  !decide (s.status = "completed") &&
  all_battles_completed s "final" none &&
  all_battles_completed s "third_place" none &&
  (match s.battles.find? (fun b => decide (b.stage = "final")),
      s.battles.find? (fun b => decide (b.stage = "third_place")) with
   | some fb, some tb => decide (truthyN fb.winner_id ∧ truthyN fb.loser_id ∧
       truthyN tb.winner_id ∧ truthyN tb.loser_id)
   | _, _ => false)

theorem semis_flag (s : CompetitionState) :
    (try_create_semifinals s).2 = semis_ready s := by
  unfold try_create_semifinals semis_ready
  by_cases h1 : has_stage s "semifinal" <;> simp only [h1, if_true, if_false]
  · simp
  by_cases h2 : all_battles_completed s "group" (some "A") <;>
    simp only [h2, not_true, not_false_iff, if_true, if_false]
  · by_cases h3 : all_battles_completed s "group" (some "B") <;>
      simp only [h3, not_true, not_false_iff, if_true, if_false]
    · rcases hA : group_standings s "A" with _ | ⟨a1, _ | ⟨a2, restA⟩⟩ <;>
        rcases hB : group_standings s "B" with _ | ⟨b1, _ | ⟨b2, restB⟩⟩ <;>
        simp [hA, hB, h1, h2, h3]
    · simp [h3]
  · simp [h2]

theorem finals_flag (s : CompetitionState) :
    (try_create_final_and_third_place s).2 = finals_ready s := by
  unfold try_create_final_and_third_place finals_ready
  by_cases h1 : has_stage s "semifinal" <;> simp only [h1, if_true, if_false]
  case neg => simp
  by_cases h2 : all_battles_completed s "semifinal" none <;>
    simp only [h2, not_true, not_false_iff, if_true, if_false]
  case neg => simp
  by_cases h3 : has_stage s "final" ∨ has_stage s "third_place" <;>
    simp only [h3, if_true, if_false]
  · rcases h3 with h3 | h3 <;> simp [h3]
  · push_neg at h3
    obtain ⟨h3a, h3b⟩ := h3
    simp only [Bool.not_eq_true] at h3a h3b
    rcases hS : sortByKey (fun b : BattleT => b.order_index)
        (s.battles.filter (fun b => decide (b.stage = "semifinal"))) with
      _ | ⟨sf1, _ | ⟨sf2, _ | ⟨sf3, rest⟩⟩⟩ <;>
      simp [hS, h1, h2, h3a, h3b] <;>
      by_cases h4 : truthyN sf1.winner_id ∧ truthyN sf1.loser_id ∧
        truthyN sf2.winner_id ∧ truthyN sf2.loser_id <;>
      simp [h4] <;> intros <;> simp_all

theorem fin_flag (s : CompetitionState) :
    (finalize_competition_if_ready s).2 = fin_ready s := by
  unfold finalize_competition_if_ready fin_ready
  by_cases h1 : s.status = "completed" <;> simp only [h1, if_true, if_false]
  case pos => simp [h1]
  by_cases h2 : all_battles_completed s "final" none <;>
    simp only [h2, not_true, not_false_iff, if_true, if_false]
  case neg => simp [h2]
  by_cases h3 : all_battles_completed s "third_place" none <;>
    simp only [h3, not_true, not_false_iff, if_true, if_false]
  case neg => simp [h3]
  rcases hF : s.battles.find? (fun b => decide (b.stage = "final")) with _ | fb <;>
    rcases hT : s.battles.find? (fun b => decide (b.stage = "third_place")) with _ | tb <;>
    simp [hF, hT, h1, h2, h3]
  by_cases h4 : truthyN fb.winner_id ∧ truthyN fb.loser_id ∧
      truthyN tb.winner_id ∧ truthyN tb.loser_id <;> simp [h4] <;> intros <;> simp_all

theorem semis_step_shape (s : CompetitionState) :
    try_create_semifinals s = (s, false) ∨
    ∃ sf1 sf2 : BattleT, sf1.stage = "semifinal" ∧ sf1.status = "pending" ∧
      sf1.winner_id = none ∧ sf1.loser_id = none ∧
      sf2.stage = "semifinal" ∧ sf2.status = "pending" ∧
      sf2.winner_id = none ∧ sf2.loser_id = none ∧
      try_create_semifinals s =
        ({ s with battles := s.battles ++ [sf1, sf2] }, true) := by
  unfold try_create_semifinals
  split
  · exact Or.inl rfl
  split
  · exact Or.inl rfl
  split
  · exact Or.inl rfl
  split
  · exact Or.inr ⟨_, _, rfl, rfl, rfl, rfl, rfl, rfl, rfl, rfl, rfl⟩
  · exact Or.inl rfl

theorem finals_step_shape (s : CompetitionState) :
    try_create_final_and_third_place s = (s, false) ∨
    ∃ third final : BattleT, third.stage = "third_place" ∧
      third.status = "pending" ∧ third.winner_id = none ∧ third.loser_id = none ∧
      final.stage = "final" ∧ final.status = "pending" ∧
      final.winner_id = none ∧ final.loser_id = none ∧
      try_create_final_and_third_place s =
        ({ s with battles := s.battles ++ [third, final] }, true) := by
  unfold try_create_final_and_third_place
  split
  · exact Or.inl rfl
  split
  · exact Or.inl rfl
  split
  · exact Or.inl rfl
  split
  · split
    · exact Or.inr ⟨_, _, rfl, rfl, rfl, rfl, rfl, rfl, rfl, rfl, rfl⟩
    · exact Or.inl rfl
  · exact Or.inl rfl

theorem fin_step_shape (s : CompetitionState) :
    finalize_competition_if_ready s = (s, false) ∨
    ∃ pm : List (ℕ × ℕ),
      finalize_competition_if_ready s =
        ({ s with entries := s.entries.map (finalizeEntry pm),
                  status := "completed" }, true) := by
  unfold finalize_competition_if_ready
  split
  · exact Or.inl rfl
  split
  · exact Or.inl rfl
  split
  · exact Or.inl rfl
  split
  · split
    · exact Or.inr ⟨_, rfl⟩
    · exact Or.inl rfl
  · exact Or.inl rfl

theorem semis_step_false {s : CompetitionState}
    (h : (try_create_semifinals s).2 = false) :
    try_create_semifinals s = (s, false) := by
  rcases semis_step_shape s with h2 | ⟨sf1, sf2, _, _, _, _, _, _, _, _, h2⟩
  · exact h2
  · rw [h2] at h
    simp at h

theorem finals_step_false {s : CompetitionState}
    (h : (try_create_final_and_third_place s).2 = false) :
    try_create_final_and_third_place s = (s, false) := by
  rcases finals_step_shape s with h2 | ⟨b1, b2, _, _, _, _, _, _, _, _, h2⟩
  · exact h2
  · rw [h2] at h
    simp at h

theorem fin_step_false {s : CompetitionState}
    (h : (finalize_competition_if_ready s).2 = false) :
    finalize_competition_if_ready s = (s, false) := by
  rcases fin_step_shape s with h2 | ⟨pm, h2⟩
  · exact h2
  · rw [h2] at h
    simp at h

theorem semis_step_fire {s : CompetitionState}
    (h : (try_create_semifinals s).2 = true) :
    ∃ sf1 sf2 : BattleT, sf1.stage = "semifinal" ∧ sf1.status = "pending" ∧
      sf1.winner_id = none ∧ sf1.loser_id = none ∧
      sf2.stage = "semifinal" ∧ sf2.status = "pending" ∧
      sf2.winner_id = none ∧ sf2.loser_id = none ∧
      try_create_semifinals s =
        ({ s with battles := s.battles ++ [sf1, sf2] }, true) := by
  rcases semis_step_shape s with h2 | h2
  · rw [h2] at h
    simp at h
  · exact h2

theorem finals_step_fire {s : CompetitionState}
    (h : (try_create_final_and_third_place s).2 = true) :
    ∃ third final : BattleT, third.stage = "third_place" ∧
      third.status = "pending" ∧ third.winner_id = none ∧ third.loser_id = none ∧
      final.stage = "final" ∧ final.status = "pending" ∧
      final.winner_id = none ∧ final.loser_id = none ∧
      try_create_final_and_third_place s =
        ({ s with battles := s.battles ++ [third, final] }, true) := by
  rcases finals_step_shape s with h2 | h2
  · rw [h2] at h
    simp at h
  · exact h2

theorem fin_step_fire {s : CompetitionState}
    (h : (finalize_competition_if_ready s).2 = true) :
    ∃ pm : List (ℕ × ℕ),
      finalize_competition_if_ready s =
        ({ s with entries := s.entries.map (finalizeEntry pm),
                  status := "completed" }, true) := by
  rcases fin_step_shape s with h2 | h2
  · rw [h2] at h
    simp at h
  · exact h2

/-! Congruence lemmas: what each guard reads from the state. -/

/-- Projection of an entry to the fields `group_standings` reads. -/
def entry_proj (e : EntryT) : ℕ × ℕ × Option String × Option ℕ :=
  (e.driver_id, e.driver_number, e.group_name, e.qualifying_rank)

/-- The initial stats record factors through `entry_proj`. -/
def initStat2 (q : ℕ × ℕ × Option String × Option ℕ) : Stat :=
  { driver_id := q.1, driver_number := q.2.1, wins := 0, losses := 0,
    points_for := 0, points_against := 0,
    qualifying_rank := rank_or_9999 q.2.2.2, rank := 0, point_diff := 0 }

theorem init_stats_eq_proj (l : List EntryT) :
    init_stats l = ((l.map entry_proj).map initStat2).foldl insertStat [] := by
  unfold init_stats
  rw [List.map_map, List.foldl_map]
  rfl

theorem init_stats_congr {l1 l2 : List EntryT}
    (h : l1.map entry_proj = l2.map entry_proj) :
    init_stats l1 = init_stats l2 := by
  rw [init_stats_eq_proj, init_stats_eq_proj, h]

theorem filter_group_map_proj (l1 l2 : List EntryT) (g : String)
    (h : l1.map entry_proj = l2.map entry_proj) :
    (l1.filter (fun e => decide (e.group_name = some g))).map entry_proj =
    (l2.filter (fun e => decide (e.group_name = some g))).map entry_proj := by
  have h1 : ∀ l : List EntryT,
      (l.filter (fun e => decide (e.group_name = some g))).map entry_proj =
      (l.map entry_proj).filter (fun q => decide (q.2.2.1 = some g)) := by
    intro l
    rw [List.filter_map]
    rfl
  rw [h1, h1, h]

theorem length_updStat (l : List Stat) (d : ℕ) (f : Stat → Stat) :
    (updStat l d f).length = l.length := by
  simp [updStat]

theorem length_apply_battle (s : CompetitionState) (stats : List Stat)
    (b : BattleT) : (apply_battle s stats b).length = stats.length := by
  unfold apply_battle
  split
  · rfl
  · simp [length_updStat]

theorem length_foldl_apply (s : CompetitionState) (battles : List BattleT) :
    ∀ stats : List Stat,
      (battles.foldl (apply_battle s) stats).length = stats.length := by
  induction battles with
  | nil => intro stats; rfl
  | cons b bs ih =>
    intro stats
    rw [List.foldl_cons, ih, length_apply_battle]

theorem group_standings_length (s : CompetitionState) (g : String) :
    (group_standings s g).length =
      (init_stats (s.entries.filter
        (fun e => decide (e.group_name = some g)))).length := by
  unfold group_standings
  dsimp only
  split
  next h =>
    rw [List.isEmpty_iff] at h
    rw [h]
    rfl
  next h =>
    simp only [List.length_map, List.enum_length]
    rw [(sortByKey_perm standings_key _).length_eq]
    exact length_foldl_apply s _ _

theorem group_standings_length_congr (t s : CompetitionState) (g : String)
    (h : t.entries.map entry_proj = s.entries.map entry_proj) :
    (group_standings t g).length = (group_standings s g).length := by
  rw [group_standings_length, group_standings_length,
    init_stats_congr (filter_group_map_proj _ _ g h)]

theorem has_stage_congr (t s : CompetitionState) (st : String)
    (hb : t.battles = s.battles) : has_stage t st = has_stage s st := by
  simp [has_stage, hb]

theorem abc_congr (t s : CompetitionState) (st : String) (g : Option String)
    (hb : t.battles = s.battles) :
    all_battles_completed t st g = all_battles_completed s st g := by
  simp [all_battles_completed, hb]

theorem has_stage_append (s : CompetitionState) (extra : List BattleT)
    (st : String) (h : ∀ b ∈ extra, b.stage ≠ st) :
    has_stage { s with battles := s.battles ++ extra } st = has_stage s st := by
  simp only [has_stage, List.countP_append]
  have h2 : extra.countP (fun b => decide (b.stage = st)) = 0 := by
    rw [List.countP_eq_zero]
    intro b hb
    simp [h b hb]
  rw [h2, Nat.add_zero]

theorem abc_append (s : CompetitionState) (extra : List BattleT) (st : String)
    (g : Option String) (h : ∀ b ∈ extra, b.stage ≠ st) :
    all_battles_completed { s with battles := s.battles ++ extra } st g =
      all_battles_completed s st g := by
  unfold all_battles_completed
  dsimp only
  rw [List.filter_append]
  have h2 : extra.filter (fun b => decide (b.stage = st) &&
      (match g with
       | none => true
       | some gn => decide (b.group_name = some gn))) = [] := by
    rw [List.filter_eq_nil_iff]
    intro b hb
    simp [h b hb]
  rw [h2, List.append_nil]

theorem has_stage_true_of_mem {s : CompetitionState} {b : BattleT}
    {st : String} (hmem : b ∈ s.battles) (hst : b.stage = st) :
    has_stage s st = true := by
  simp only [has_stage, gt_iff_lt, decide_eq_true_eq, List.countP_pos_iff]
  exact ⟨b, hmem, by simp [hst]⟩

theorem abc_false_of_pending_mem {s : CompetitionState} {b : BattleT}
    {st : String} (hmem : b ∈ s.battles) (hst : b.stage = st)
    (hp : b.status ≠ "completed") :
    all_battles_completed s st none = false := by
  have helper : ∀ rows : List BattleT, b ∈ rows →
      (!rows.isEmpty && rows.all (fun x => decide (x.status = "completed"))) =
        false := by
    intro rows hmem2
    have h3 : rows.all (fun x => decide (x.status = "completed")) = false := by
      rw [List.all_eq_false]
      exact ⟨b, hmem2, by simp [hp]⟩
    rw [h3, Bool.and_false]
  unfold all_battles_completed
  dsimp only
  apply helper
  rw [List.mem_filter]
  exact ⟨hmem, by simp [hst]⟩

theorem fin_false_of_completed {s : CompetitionState}
    (h : s.status = "completed") :
    finalize_competition_if_ready s = (s, false) := by
  unfold finalize_competition_if_ready
  simp [h]

theorem finals_ready_congr (t s : CompetitionState)
    (hb : t.battles = s.battles) : finals_ready t = finals_ready s := by
  simp only [finals_ready, has_stage, all_battles_completed, hb]

theorem semis_ready_append (s : CompetitionState) (extra : List BattleT)
    (h1 : ∀ b ∈ extra, b.stage ≠ "semifinal")
    (h2 : ∀ b ∈ extra, b.stage ≠ "group") :
    semis_ready { s with battles := s.battles ++ extra } = semis_ready s := by
  unfold semis_ready
  rw [has_stage_append s extra _ h1, abc_append s extra _ _ h2,
    abc_append s extra _ _ h2,
    group_standings_length_congr { s with battles := s.battles ++ extra } s "A" rfl,
    group_standings_length_congr { s with battles := s.battles ++ extra } s "B" rfl]

theorem entry_proj_finalizeEntry (pm : List (ℕ × ℕ)) (e : EntryT) :
    entry_proj (finalizeEntry pm e) = entry_proj e := by
  unfold finalizeEntry entry_proj
  cases lookupAL pm e.driver_id <;> rfl

theorem semis_ready_entries_map (s : CompetitionState) (pm : List (ℕ × ℕ)) :
    semis_ready
      { s with entries := s.entries.map (finalizeEntry pm),
               status := "completed" } = semis_ready s := by
  unfold semis_ready
  have hproj : (s.entries.map (finalizeEntry pm)).map entry_proj =
      s.entries.map entry_proj := by
    rw [List.map_map]
    exact List.map_congr_left (fun e _ => entry_proj_finalizeEntry pm e)
  rw [group_standings_length_congr
      { s with entries := s.entries.map (finalizeEntry pm), status := "completed" }
      s "A" hproj,
    group_standings_length_congr
      { s with entries := s.entries.map (finalizeEntry pm), status := "completed" }
      s "B" hproj,
    has_stage_congr
      { s with entries := s.entries.map (finalizeEntry pm), status := "completed" }
      s _ rfl,
    abc_congr
      { s with entries := s.entries.map (finalizeEntry pm), status := "completed" }
      s _ _ rfl,
    abc_congr
      { s with entries := s.entries.map (finalizeEntry pm), status := "completed" }
      s _ _ rfl]

/-- Claim C4: running the progression check again on the state produced by a
previous run, with no new scores in between, is a no-op — it creates no
battles, changes no placements, points or status, and returns all three flags
(`created_semifinals`, `created_finals`, `finalized_competition`) false. -/
theorem try_progress_competition_idempotent (s : CompetitionState) :
    try_progress_competition (try_progress_competition s).1 =
      ((try_progress_competition s).1, ⟨false, false, false⟩) := by
  cases hc1 : (try_create_semifinals s).2 with
  | true =>
    obtain ⟨sf1, sf2, hsf1s, hsf1p, _, _, hsf2s, hsf2p, _, _, heq1⟩ :=
      semis_step_fire hc1
    have hsf1mem : sf1 ∈ ({ s with battles := s.battles ++ [sf1, sf2] } :
        CompetitionState).battles := by simp
    have habc1 : all_battles_completed
        { s with battles := s.battles ++ [sf1, sf2] } "semifinal" none = false :=
      abc_false_of_pending_mem hsf1mem hsf1s (by rw [hsf1p]; decide)
    have h2 : try_create_final_and_third_place
        { s with battles := s.battles ++ [sf1, sf2] } =
        ({ s with battles := s.battles ++ [sf1, sf2] }, false) := by
      apply finals_step_false
      rw [finals_flag]
      simp [finals_ready, habc1]
    have hstep : (try_progress_competition s).1 =
        (finalize_competition_if_ready
          { s with battles := s.battles ++ [sf1, sf2] }).1 := by
      unfold try_progress_competition
      dsimp only
      rw [heq1]
      dsimp only
      rw [h2]
    cases hc3 : (finalize_competition_if_ready
        { s with battles := s.battles ++ [sf1, sf2] }).2 with
    | false =>
      have h3 := fin_step_false hc3
      rw [h3] at hstep
      rw [hstep]
      have hA : try_create_semifinals
          { s with battles := s.battles ++ [sf1, sf2] } =
          ({ s with battles := s.battles ++ [sf1, sf2] }, false) := by
        apply semis_step_false
        rw [semis_flag]
        simp [semis_ready, has_stage_true_of_mem hsf1mem hsf1s]
      unfold try_progress_competition
      dsimp only
      rw [hA]
      dsimp only
      rw [h2]
      dsimp only
      rw [h3]
    | true =>
      obtain ⟨pm, heq3⟩ := fin_step_fire hc3
      rw [heq3] at hstep
      dsimp only at hstep
      rw [hstep]
      have hmem3 : sf1 ∈ ({ { s with battles := s.battles ++ [sf1, sf2] } with
          entries := ({ s with battles := s.battles ++ [sf1, sf2] } :
            CompetitionState).entries.map (finalizeEntry pm),
          status := "completed" } : CompetitionState).battles := by simp
      have hA : try_create_semifinals
          { { s with battles := s.battles ++ [sf1, sf2] } with
            entries := ({ s with battles := s.battles ++ [sf1, sf2] } :
              CompetitionState).entries.map (finalizeEntry pm),
            status := "completed" } =
          ({ { s with battles := s.battles ++ [sf1, sf2] } with
            entries := ({ s with battles := s.battles ++ [sf1, sf2] } :
              CompetitionState).entries.map (finalizeEntry pm),
            status := "completed" }, false) := by
        apply semis_step_false
        rw [semis_flag]
        simp [semis_ready, has_stage_true_of_mem hmem3 hsf1s]
      have habc3 : all_battles_completed
          { { s with battles := s.battles ++ [sf1, sf2] } with
            entries := ({ s with battles := s.battles ++ [sf1, sf2] } :
              CompetitionState).entries.map (finalizeEntry pm),
            status := "completed" } "semifinal" none = false :=
        abc_false_of_pending_mem hmem3 hsf1s (by rw [hsf1p]; decide)
      have hB : try_create_final_and_third_place
          { { s with battles := s.battles ++ [sf1, sf2] } with
            entries := ({ s with battles := s.battles ++ [sf1, sf2] } :
              CompetitionState).entries.map (finalizeEntry pm),
            status := "completed" } =
          ({ { s with battles := s.battles ++ [sf1, sf2] } with
            entries := ({ s with battles := s.battles ++ [sf1, sf2] } :
              CompetitionState).entries.map (finalizeEntry pm),
            status := "completed" }, false) := by
        apply finals_step_false
        rw [finals_flag]
        simp [finals_ready, habc3]
      have hC : finalize_competition_if_ready
          { { s with battles := s.battles ++ [sf1, sf2] } with
            entries := ({ s with battles := s.battles ++ [sf1, sf2] } :
              CompetitionState).entries.map (finalizeEntry pm),
            status := "completed" } =
          ({ { s with battles := s.battles ++ [sf1, sf2] } with
            entries := ({ s with battles := s.battles ++ [sf1, sf2] } :
              CompetitionState).entries.map (finalizeEntry pm),
            status := "completed" }, false) :=
        fin_false_of_completed rfl
      unfold try_progress_competition
      dsimp only
      rw [hA]
      dsimp only
      rw [hB]
      dsimp only
      rw [hC]
  | false =>
    have h1 := semis_step_false hc1
    rw [semis_flag] at hc1
    cases hc2 : (try_create_final_and_third_place s).2 with
    | true =>
      obtain ⟨third, final, hthird_s, hthird_p, _, _, hfinal_s, hfinal_p, _, _,
        heq2⟩ := finals_step_fire hc2
      have hfinmem : final ∈ ({ s with battles := s.battles ++ [third, final] } :
          CompetitionState).battles := by simp
      have habcF : all_battles_completed
          { s with battles := s.battles ++ [third, final] } "final" none =
          false :=
        abc_false_of_pending_mem hfinmem hfinal_s (by rw [hfinal_p]; decide)
      have h3 : finalize_competition_if_ready
          { s with battles := s.battles ++ [third, final] } =
          ({ s with battles := s.battles ++ [third, final] }, false) := by
        apply fin_step_false
        rw [fin_flag]
        simp [fin_ready, habcF]
      have hstep : (try_progress_competition s).1 =
          { s with battles := s.battles ++ [third, final] } := by
        unfold try_progress_competition
        dsimp only
        rw [h1]
        dsimp only
        rw [heq2]
        dsimp only
        rw [h3]
      rw [hstep]
      have hextra1 : ∀ b ∈ [third, final], b.stage ≠ "semifinal" := by
        intro b hb
        rcases List.mem_cons.mp hb with h | h
        · rw [h, hthird_s]; decide
        · simp only [List.mem_singleton] at h
          rw [h, hfinal_s]; decide
      have hextra2 : ∀ b ∈ [third, final], b.stage ≠ "group" := by
        intro b hb
        rcases List.mem_cons.mp hb with h | h
        · rw [h, hthird_s]; decide
        · simp only [List.mem_singleton] at h
          rw [h, hfinal_s]; decide
      have hA : try_create_semifinals
          { s with battles := s.battles ++ [third, final] } =
          ({ s with battles := s.battles ++ [third, final] }, false) := by
        apply semis_step_false
        rw [semis_flag, semis_ready_append s [third, final] hextra1 hextra2]
        exact hc1
      have hB : try_create_final_and_third_place
          { s with battles := s.battles ++ [third, final] } =
          ({ s with battles := s.battles ++ [third, final] }, false) := by
        apply finals_step_false
        rw [finals_flag]
        simp [finals_ready, has_stage_true_of_mem hfinmem hfinal_s]
      unfold try_progress_competition
      dsimp only
      rw [hA]
      dsimp only
      rw [hB]
      dsimp only
      rw [h3]
    | false =>
      have h2 := finals_step_false hc2
      rw [finals_flag] at hc2
      cases hc3 : (finalize_competition_if_ready s).2 with
      | true =>
        obtain ⟨pm, heq3⟩ := fin_step_fire hc3
        have hstep : (try_progress_competition s).1 =
            { s with entries := s.entries.map (finalizeEntry pm),
                     status := "completed" } := by
          unfold try_progress_competition
          dsimp only
          rw [h1]
          dsimp only
          rw [h2]
          dsimp only
          rw [heq3]
        rw [hstep]
        have hA : try_create_semifinals
            { s with entries := s.entries.map (finalizeEntry pm),
                     status := "completed" } =
            ({ s with entries := s.entries.map (finalizeEntry pm),
                      status := "completed" }, false) := by
          apply semis_step_false
          rw [semis_flag, semis_ready_entries_map s pm]
          exact hc1
        have hB : try_create_final_and_third_place
            { s with entries := s.entries.map (finalizeEntry pm),
                     status := "completed" } =
            ({ s with entries := s.entries.map (finalizeEntry pm),
                      status := "completed" }, false) := by
          apply finals_step_false
          rw [finals_flag, finals_ready_congr
            { s with entries := s.entries.map (finalizeEntry pm),
                     status := "completed" } s rfl]
          exact hc2
        have hC : finalize_competition_if_ready
            { s with entries := s.entries.map (finalizeEntry pm),
                     status := "completed" } =
            ({ s with entries := s.entries.map (finalizeEntry pm),
                      status := "completed" }, false) :=
          fin_false_of_completed rfl
        unfold try_progress_competition
        dsimp only
        rw [hA]
        dsimp only
        rw [hB]
        dsimp only
        rw [hC]
      | false =>
        have h3 := fin_step_false hc3
        have hstep : (try_progress_competition s).1 = s := by
          unfold try_progress_competition
          dsimp only
          rw [h1]
          dsimp only
          rw [h2]
          dsimp only
          rw [h3]
        rw [hstep]
        unfold try_progress_competition
        dsimp only
        rw [h1]
        dsimp only
        rw [h2]
        dsimp only
        rw [h3]

theorem semis_step_skeleton (s : CompetitionState) :
    ∃ extra : List BattleT,
      (try_create_semifinals s).1.battles = s.battles ++ extra ∧
      (∀ b ∈ extra, b.status = "pending" ∧ b.winner_id = none ∧
        b.loser_id = none) ∧
      (try_create_semifinals s).1.judges = s.judges ∧
      (try_create_semifinals s).1.runScores = s.runScores ∧
      (try_create_semifinals s).1.qualScores = s.qualScores := by
  rcases semis_step_shape s with h | ⟨sf1, sf2, _, hp1, hw1, hl1, _, hp2, hw2,
    hl2, h⟩
  · exact ⟨[], by rw [h]; simp, by simp, by rw [h], by rw [h], by rw [h]⟩
  · refine ⟨[sf1, sf2], by rw [h], ?_, by rw [h], by rw [h], by rw [h]⟩
    intro b hb
    rcases List.mem_cons.mp hb with hbb | hbb
    · exact hbb ▸ ⟨hp1, hw1, hl1⟩
    · simp only [List.mem_singleton] at hbb
      exact hbb ▸ ⟨hp2, hw2, hl2⟩

theorem finals_step_skeleton (s : CompetitionState) :
    ∃ extra : List BattleT,
      (try_create_final_and_third_place s).1.battles = s.battles ++ extra ∧
      (∀ b ∈ extra, b.status = "pending" ∧ b.winner_id = none ∧
        b.loser_id = none) ∧
      (try_create_final_and_third_place s).1.judges = s.judges ∧
      (try_create_final_and_third_place s).1.runScores = s.runScores ∧
      (try_create_final_and_third_place s).1.qualScores = s.qualScores := by
  rcases finals_step_shape s with h | ⟨b1, b2, _, hp1, hw1, hl1, _, hp2, hw2,
    hl2, h⟩
  · exact ⟨[], by rw [h]; simp, by simp, by rw [h], by rw [h], by rw [h]⟩
  · refine ⟨[b1, b2], by rw [h], ?_, by rw [h], by rw [h], by rw [h]⟩
    intro b hb
    rcases List.mem_cons.mp hb with hbb | hbb
    · exact hbb ▸ ⟨hp1, hw1, hl1⟩
    · simp only [List.mem_singleton] at hbb
      exact hbb ▸ ⟨hp2, hw2, hl2⟩

theorem fin_step_preserves (s : CompetitionState) :
    (finalize_competition_if_ready s).1.battles = s.battles ∧
    (finalize_competition_if_ready s).1.judges = s.judges ∧
    (finalize_competition_if_ready s).1.runScores = s.runScores ∧
    (finalize_competition_if_ready s).1.qualScores = s.qualScores := by
  rcases fin_step_shape s with h | ⟨pm, h⟩ <;> rw [h] <;>
    exact ⟨rfl, rfl, rfl, rfl⟩

/-- Every state change made by the progression check: it only ever appends
battles, and every battle it creates is pending with no winner or loser;
judges, run scores and qualifying scores are untouched. -/
theorem try_progress_skeleton (s : CompetitionState) :
    ∃ extra : List BattleT,
      (try_progress_competition s).1.battles = s.battles ++ extra ∧
      (∀ b ∈ extra, b.status = "pending" ∧ b.winner_id = none ∧
        b.loser_id = none) ∧
      (try_progress_competition s).1.judges = s.judges ∧
      (try_progress_competition s).1.runScores = s.runScores ∧
      (try_progress_competition s).1.qualScores = s.qualScores := by
  obtain ⟨e1, hb1, hp1, hj1, hr1, hq1⟩ := semis_step_skeleton s
  obtain ⟨e2, hb2, hp2, hj2, hr2, hq2⟩ :=
    finals_step_skeleton ((try_create_semifinals s).1)
  obtain ⟨hb3, hj3, hr3, hq3⟩ := fin_step_preserves
    ((try_create_final_and_third_place (try_create_semifinals s).1).1)
  have htp : (try_progress_competition s).1 =
      (finalize_competition_if_ready
        ((try_create_final_and_third_place (try_create_semifinals s).1).1)).1 :=
    rfl
  refine ⟨e1 ++ e2, ?_, ?_, ?_, ?_, ?_⟩
  · rw [htp, hb3, hb2, hb1, List.append_assoc]
  · intro b hb
    rcases List.mem_append.mp hb with h | h
    · exact hp1 b h
    · exact hp2 b h
  · rw [htp, hj3, hj2, hj1]
  · rw [htp, hr3, hr2, hr1]
  · rw [htp, hq3, hq2, hq1]

theorem upsert_run_row_battles (s : CompetitionState) (a b c d : ℕ)
    (x y : ℚ) : (upsert_run_row s a b c d x y).battles = s.battles := by
  unfold upsert_run_row
  split <;> rfl

theorem upsert_run_row_judges (s : CompetitionState) (a b c d : ℕ)
    (x y : ℚ) : (upsert_run_row s a b c d x y).judges = s.judges := by
  unfold upsert_run_row
  split <;> rfl

theorem get_battle_tp {s : CompetitionState} {bid : ℕ} {battle : BattleT}
    (hfind : get_battle s bid = some battle) :
    get_battle (try_progress_competition s).1 bid = some battle := by
  obtain ⟨extra, hb, _, _, _, _⟩ := try_progress_skeleton s
  unfold get_battle at hfind ⊢
  rw [hb, List.find?_append, hfind]
  rfl

theorem get_battle_upsert_row {s : CompetitionState} {bid : ℕ}
    (a b c d : ℕ) (x y : ℚ) :
    get_battle (upsert_run_row s a b c d x y) bid = get_battle s bid := by
  unfold get_battle
  rw [upsert_run_row_battles]

theorem get_battle_set_result {s : CompetitionState} {bid : ℕ}
    {battle : BattleT} (hfind : get_battle s bid = some battle) (w l : ℕ) :
    get_battle (set_battle_result s battle.id w l) bid =
      some { battle with
             winner_id := some w, loser_id := some l,
             status := "completed" } := by
  unfold get_battle at hfind ⊢
  unfold set_battle_result
  dsimp only
  rw [List.find?_map]
  have hcomp : ((fun b : BattleT => decide (b.id = bid)) ∘
      (fun b : BattleT => if b.id = battle.id then
        { b with winner_id := some w, loser_id := some l,
                 status := "completed" }
      else b)) = (fun b : BattleT => decide (b.id = bid)) := by
    funext b
    by_cases hb : b.id = battle.id <;> simp [hb]
  rw [hcomp, hfind]
  simp

theorem resolve_scores (a b c d : ℚ) :
    (resolve_two_run_round a b c d).driver1_round_score =
      round_score ((a + c) / 2) ∧
    (resolve_two_run_round a b c d).driver2_round_score =
      round_score ((b + d) / 2) := by
  unfold resolve_two_run_round
  dsimp only
  split_ifs <;> exact ⟨rfl, rfl⟩

theorem resolve_none_iff (a b c d : ℚ) :
    (resolve_two_run_round a b c d).winner_slot = none ↔
      |(resolve_two_run_round a b c d).driver1_round_score -
        (resolve_two_run_round a b c d).driver2_round_score| <
        1 / 1000000000 := by
  unfold resolve_two_run_round
  dsimp only
  split_ifs with h1 h2
  · exact iff_of_true rfl h1
  · exact iff_of_false (by simp) h1
  · exact iff_of_false (by simp) h1

theorem resolve_slot1 {a b c d : ℚ}
    (h : (resolve_two_run_round a b c d).winner_slot = some 1) :
    (resolve_two_run_round a b c d).driver1_round_score >
      (resolve_two_run_round a b c d).driver2_round_score := by
  unfold resolve_two_run_round at h ⊢
  dsimp only at h ⊢
  split_ifs at h ⊢ with h1 h2
  · exact h2
  · exact absurd h (by simp)

theorem resolve_slot2 {a b c d : ℚ}
    (h : (resolve_two_run_round a b c d).winner_slot = some 2) :
    (resolve_two_run_round a b c d).driver2_round_score >
      (resolve_two_run_round a b c d).driver1_round_score := by
  unfold resolve_two_run_round at h ⊢
  dsimp only at h ⊢
  split_ifs at h ⊢ with h1 h2
  · exact absurd h (by simp)
  have hne : round_score ((a + c) / 2) ≠ round_score ((b + d) / 2) := by
    intro he
    rw [he] at h1
    simp only [sub_self, abs_zero] at h1
    exact h1 (by norm_num)
  exact lt_of_le_of_ne (not_lt.mp h2) hne

/-- Structure of a successful battle run score submission: the battle was
pending, the score row was written, and the returned state is the progression
check applied to either the written state (round incomplete or tied) or the
state with the battle resolved for the higher-scoring slot. -/
theorem upsert_success_shape (s : CompetitionState)
    (battle_id judge_id omt_round run_number : ℕ) (d1 d2 : ℚ)
    (battle : BattleT) (s2 : CompetitionState)
    (hfind : get_battle s battle_id = some battle)
    (hok : upsert_battle_run_score s battle_id judge_id omt_round run_number
      d1 d2 = .ok s2) :
    battle.status ≠ "completed" ∧
    (let s1 := upsert_run_row s battle.id omt_round run_number judge_id
      (round_score d1) (round_score d2)
    let rd := round_averages s1 battle omt_round
    let res := resolve_two_run_round rd.run1_driver1 rd.run1_driver2
      rd.run2_driver1 rd.run2_driver2
    (rd.complete = false → s2 = (try_progress_competition s1).1) ∧
    (rd.complete = true → res.winner_slot = none →
      s2 = (try_progress_competition s1).1) ∧
    (rd.complete = true → res.winner_slot = some 1 →
      s2 = (try_progress_competition (set_battle_result s1 battle.id
        battle.driver1_id battle.driver2_id)).1) ∧
    (rd.complete = true → res.winner_slot = some 2 →
      s2 = (try_progress_competition (set_battle_result s1 battle.id
        battle.driver2_id battle.driver1_id)).1)) := by
  unfold upsert_battle_run_score at hok
  rw [hfind] at hok
  dsimp only at hok
  split at hok
  next hc => exact absurd hok (by simp)
  next hc =>
    split at hok
    next => exact absurd hok (by simp)
    next hsum =>
      split at hok
      next => exact absurd hok (by simp)
      next hjudge =>
        split at hok
        next hround => exact absurd hok (by simp)
        next hround =>
          refine ⟨hc, ?_, ?_, ?_, ?_⟩ <;> dsimp only <;> intro hcomp
          · rw [hcomp] at hok
            simp only [Bool.false_eq_true, if_false, Except.ok.injEq] at hok
            exact hok.symm
          · intro hslot
            rw [hcomp] at hok
            simp only [if_true] at hok
            rw [hslot] at hok
            simp only [Except.ok.injEq] at hok
            exact hok.symm
          · intro hslot
            rw [hcomp] at hok
            simp only [if_true] at hok
            rw [hslot] at hok
            simp only [Except.ok.injEq] at hok
            rw [← hok]
            simp
          · intro hslot
            rw [hcomp] at hok
            simp only [if_true] at hok
            rw [hslot] at hok
            simp only [Except.ok.injEq] at hok
            rw [← hok]
            simp

theorem resolve_slot_values {a b c d : ℚ} {slot : ℕ}
    (h : (resolve_two_run_round a b c d).winner_slot = some slot) :
    slot = 1 ∨ slot = 2 := by
  unfold resolve_two_run_round at h
  dsimp only at h
  split_ifs at h
  · left
    simp at h
    omega
  · right
    simp at h
    omega

/-- Claim C9: whenever the core transitions a battle to completed, its
winner and loser are its own driver1_id and driver2_id in some order, both
non-null, and distinct whenever the battle's two drivers are distinct; and
every battle created by the progression check is pending with winner and
loser unset. -/
theorem battle_completion_invariant (s : CompetitionState)
    (battle_id judge_id omt_round run_number : ℕ) (d1 d2 : ℚ) :
    (∀ (battle battle2 : BattleT) (s2 : CompetitionState),
      get_battle s battle_id = some battle →
      upsert_battle_run_score s battle_id judge_id omt_round run_number d1 d2 =
        .ok s2 →
      get_battle s2 battle_id = some battle2 →
      battle2.status = "completed" →
      ((battle2.winner_id = some battle.driver1_id ∧
        battle2.loser_id = some battle.driver2_id) ∨
       (battle2.winner_id = some battle.driver2_id ∧
        battle2.loser_id = some battle.driver1_id)) ∧
      battle2.winner_id.isSome = true ∧ battle2.loser_id.isSome = true ∧
      (battle.driver1_id ≠ battle.driver2_id →
        battle2.winner_id ≠ battle2.loser_id)) ∧
    (∀ nb ∈ (try_progress_competition s).1.battles,
      nb ∈ s.battles ∨
        (nb.status = "pending" ∧ nb.winner_id = none ∧ nb.loser_id = none)) := by
  constructor
  · intro battle battle2 s2 hfind hok hfind2 hcompl
    obtain ⟨hpend, hincomp, htie, hslot1, hslot2⟩ :=
      upsert_success_shape s battle_id judge_id omt_round run_number d1 d2
        battle s2 hfind hok
    have hfind1 : get_battle (upsert_run_row s battle.id omt_round run_number
        judge_id (round_score d1) (round_score d2)) battle_id = some battle := by
      rw [get_battle_upsert_row]
      exact hfind
    cases hcomp : (round_averages (upsert_run_row s battle.id omt_round
        run_number judge_id (round_score d1) (round_score d2)) battle
        omt_round).complete with
    | false =>
      have hs2 := hincomp hcomp
      have hsame : get_battle s2 battle_id = some battle := by
        rw [hs2]
        exact get_battle_tp hfind1
      rw [hsame] at hfind2
      injection hfind2 with h2
      rw [← h2] at hcompl
      exact absurd hcompl hpend
    | true =>
      cases hslot : (resolve_two_run_round
          (round_averages (upsert_run_row s battle.id omt_round run_number
            judge_id (round_score d1) (round_score d2)) battle
            omt_round).run1_driver1
          (round_averages (upsert_run_row s battle.id omt_round run_number
            judge_id (round_score d1) (round_score d2)) battle
            omt_round).run1_driver2
          (round_averages (upsert_run_row s battle.id omt_round run_number
            judge_id (round_score d1) (round_score d2)) battle
            omt_round).run2_driver1
          (round_averages (upsert_run_row s battle.id omt_round run_number
            judge_id (round_score d1) (round_score d2)) battle
            omt_round).run2_driver2).winner_slot with
      | none =>
        have hs2 := htie hcomp hslot
        have hsame : get_battle s2 battle_id = some battle := by
          rw [hs2]
          exact get_battle_tp hfind1
        rw [hsame] at hfind2
        injection hfind2 with h2
        rw [← h2] at hcompl
        exact absurd hcompl hpend
      | some slot =>
        rcases resolve_slot_values hslot with h1 | h1
        · subst h1
          have hs2 := hslot1 hcomp hslot
          have hres : get_battle s2 battle_id =
              some { battle with
                     winner_id := some battle.driver1_id,
                     loser_id := some battle.driver2_id,
                     status := "completed" } := by
            rw [hs2]
            exact get_battle_tp (get_battle_set_result hfind1 _ _)
          rw [hres] at hfind2
          injection hfind2 with h2
          rw [← h2]
          refine ⟨Or.inl ⟨rfl, rfl⟩, rfl, rfl, ?_⟩
          intro hd
          simp [hd]
        · subst h1
          have hs2 := hslot2 hcomp hslot
          have hres : get_battle s2 battle_id =
              some { battle with
                     winner_id := some battle.driver2_id,
                     loser_id := some battle.driver1_id,
                     status := "completed" } := by
            rw [hs2]
            exact get_battle_tp (get_battle_set_result hfind1 _ _)
          rw [hres] at hfind2
          injection hfind2 with h2
          rw [← h2]
          refine ⟨Or.inr ⟨rfl, rfl⟩, rfl, rfl, ?_⟩
          intro hd
          simp
          omega
  · intro nb hnb
    obtain ⟨extra, hb, hp, _, _, _⟩ := try_progress_skeleton s
    rw [hb] at hnb
    rcases List.mem_append.mp hnb with h | h
    · exact Or.inl h
    · exact Or.inr (hp nb h)

/-- Concrete pending battle for the C9 witness (run 1 already scored). -/
def battleC9 : BattleT := ⟨1, "group", some "A", 1, 1, 3, "pending", none, none⟩

/-- Concrete state for the C9 witness. -/
def stateC9 : CompetitionState :=
  ⟨"tournament", [7],
   [⟨1, 10, some "A", some 1, 95, none, 0, 0, 0⟩,
    ⟨3, 30, some "A", some 3, 85, none, 0, 0, 0⟩],
   [battleC9], [⟨1, 0, 1, 7, 6, 4⟩], []⟩

/-- The state after the winning submission in the C9 witness. -/
def stateC9b : CompetitionState :=
  (upsert_battle_run_score stateC9 1 7 0 2 6 4).toOption.getD stateC9

/-- The completed battle record in the C9 witness. -/
def battleC9done : BattleT :=
  ⟨1, "group", some "A", 1, 1, 3, "completed", some 1, some 3⟩

/-- Witness for C9: the winning submission completes battle 1 with winner 1
and loser 3 — the battle's own drivers, non-null and distinct. -/
theorem battle_completion_invariant_witness :
    get_battle stateC9 1 = some battleC9 ∧
    upsert_battle_run_score stateC9 1 7 0 2 6 4 = .ok stateC9b ∧
    get_battle stateC9b 1 = some battleC9done ∧
    battleC9done.status = "completed" ∧
    (((battleC9done.winner_id = some battleC9.driver1_id ∧
       battleC9done.loser_id = some battleC9.driver2_id) ∨
      (battleC9done.winner_id = some battleC9.driver2_id ∧
       battleC9done.loser_id = some battleC9.driver1_id)) ∧
     battleC9done.winner_id.isSome = true ∧
     battleC9done.loser_id.isSome = true ∧
     (battleC9.driver1_id ≠ battleC9.driver2_id →
       battleC9done.winner_id ≠ battleC9done.loser_id)) :=
  ⟨by with_unfolding_all rfl, by with_unfolding_all rfl,
   by with_unfolding_all rfl, rfl,
   (battle_completion_invariant stateC9 1 7 0 2 6 4).1 battleC9 battleC9done
     stateC9b (by with_unfolding_all rfl) (by with_unfolding_all rfl)
     (by with_unfolding_all rfl) rfl⟩

theorem bcor_congr {t s : CompetitionState} (bid : ℕ)
    (h : t.runScores = s.runScores) :
    battle_current_omt_round t bid = battle_current_omt_round s bid := by
  simp [battle_current_omt_round, h]

theorem ra_congr {t s : CompetitionState} (b : BattleT) (o : ℕ)
    (h1 : t.runScores = s.runScores) (h2 : t.judges = s.judges) :
    round_averages t b o = round_averages s b o := by
  simp [round_averages, judge_count, h1, h2]

/-- Claim C1: when a successful submission makes both runs of the battle's
current round fully scored, each driver's round score is
`round2((run1_avg + run2_avg) / 2)`; when the two round scores differ by less
than 1e-9 the round is a tie — the battle stays pending with no winner and
the next overtime round becomes open (`next_required_omt_round` is
current + 1) — otherwise the higher-scoring driver becomes winner, the other
loser, and the battle transitions to completed. -/
theorem upsert_round_resolution_spec (s : CompetitionState)
    (battle_id judge_id omt_round run_number : ℕ) (d1 d2 : ℚ)
    (battle : BattleT) (s2 : CompetitionState)
    (hfind : get_battle s battle_id = some battle)
    (hok : upsert_battle_run_score s battle_id judge_id omt_round run_number
      d1 d2 = .ok s2)
    (hcomp : (round_averages (upsert_run_row s battle.id omt_round run_number
      judge_id (round_score d1) (round_score d2)) battle omt_round).complete =
      true)
    (hcur : battle_current_omt_round (upsert_run_row s battle.id omt_round
      run_number judge_id (round_score d1) (round_score d2)) battle.id =
      omt_round) :
    (let rd := round_averages (upsert_run_row s battle.id omt_round run_number
      judge_id (round_score d1) (round_score d2)) battle omt_round
    let res := resolve_two_run_round rd.run1_driver1 rd.run1_driver2
      rd.run2_driver1 rd.run2_driver2
    res.driver1_round_score =
      round_score ((rd.run1_driver1 + rd.run2_driver1) / 2) ∧
    res.driver2_round_score =
      round_score ((rd.run1_driver2 + rd.run2_driver2) / 2) ∧
    (res.winner_slot = none ↔
      |res.driver1_round_score - res.driver2_round_score| < 1 / 1000000000) ∧
    (res.winner_slot = none →
      get_battle s2 battle_id = some battle ∧
      battle.status ≠ "completed" ∧
      battle_state s2 battle =
        ⟨battle.status, battle.winner_id, battle.loser_id, omt_round,
         omt_round + 1⟩) ∧
    (res.winner_slot = some 1 →
      res.driver1_round_score > res.driver2_round_score ∧
      get_battle s2 battle_id = some { battle with
        winner_id := some battle.driver1_id,
        loser_id := some battle.driver2_id,
        status := "completed" }) ∧
    (res.winner_slot = some 2 →
      res.driver2_round_score > res.driver1_round_score ∧
      get_battle s2 battle_id = some { battle with
        winner_id := some battle.driver2_id,
        loser_id := some battle.driver1_id,
        status := "completed" })) := by
  obtain ⟨hpend, hincomp, htie, hslot1, hslot2⟩ :=
    upsert_success_shape s battle_id judge_id omt_round run_number d1 d2
      battle s2 hfind hok
  dsimp only
  have hfind1 : get_battle (upsert_run_row s battle.id omt_round run_number
      judge_id (round_score d1) (round_score d2)) battle_id = some battle := by
    rw [get_battle_upsert_row]
    exact hfind
  refine ⟨(resolve_scores _ _ _ _).1, (resolve_scores _ _ _ _).2,
    resolve_none_iff _ _ _ _, ?_, ?_, ?_⟩
  · intro hslot
    have hs2 := htie hcomp hslot
    obtain ⟨extra, hb, hpextra, hj, hrs, hq⟩ := try_progress_skeleton
      (upsert_run_row s battle.id omt_round run_number judge_id
        (round_score d1) (round_score d2))
    refine ⟨by rw [hs2]; exact get_battle_tp hfind1, hpend, ?_⟩
    have hrs2 : s2.runScores = (upsert_run_row s battle.id omt_round
        run_number judge_id (round_score d1) (round_score d2)).runScores := by
      rw [hs2]
      exact hrs
    have hj2 : s2.judges = (upsert_run_row s battle.id omt_round run_number
        judge_id (round_score d1) (round_score d2)).judges := by
      rw [hs2]
      exact hj
    unfold battle_state
    dsimp only
    rw [bcor_congr battle.id hrs2, hcur, ra_congr battle omt_round hrs2 hj2,
      hcomp]
    simp [hpend, hslot]
  · intro hslot
    refine ⟨resolve_slot1 hslot, ?_⟩
    rw [hslot1 hcomp hslot]
    exact get_battle_tp (get_battle_set_result hfind1 _ _)
  · intro hslot
    refine ⟨resolve_slot2 hslot, ?_⟩
    rw [hslot2 hcomp hslot]
    exact get_battle_tp (get_battle_set_result hfind1 _ _)

/-- Concrete pending battle for the C1 witness (run 1 already scored 5/5). -/
def battleC1 : BattleT := ⟨1, "group", some "A", 1, 1, 3, "pending", none, none⟩

/-- Concrete state for the C1 witness. -/
def stateC1 : CompetitionState :=
  ⟨"tournament", [7],
   [⟨1, 10, some "A", some 1, 95, none, 0, 0, 0⟩,
    ⟨3, 30, some "A", some 3, 85, none, 0, 0, 0⟩],
   [battleC1], [⟨1, 0, 1, 7, 5, 5⟩], []⟩

/-- The state after the tying 5/5 submission in the C1 witness. -/
def stateC1b : CompetitionState :=
  (upsert_battle_run_score stateC1 1 7 0 2 5 5).toOption.getD stateC1

/-- Witness for C1: a 5/5 second run ties round 0; the battle stays pending
with no winner, and round 1 becomes open. -/
theorem upsert_round_resolution_spec_witness :
    (round_averages (upsert_run_row stateC1 1 0 2 7 (round_score 5)
      (round_score 5)) battleC1 0).complete = true ∧
    battle_current_omt_round (upsert_run_row stateC1 1 0 2 7 (round_score 5)
      (round_score 5)) battleC1.id = 0 ∧
    (get_battle stateC1b 1 = some battleC1 ∧
     battleC1.status ≠ "completed" ∧
     battle_state stateC1b battleC1 =
       ⟨battleC1.status, battleC1.winner_id, battleC1.loser_id, 0, 1⟩) :=
  ⟨by with_unfolding_all rfl, by with_unfolding_all rfl,
   (upsert_round_resolution_spec stateC1 1 7 0 2 5 5 battleC1 stateC1b
     (by with_unfolding_all rfl) (by with_unfolding_all rfl)
     (by with_unfolding_all rfl) (by with_unfolding_all rfl)).2.2.2.1
     (by with_unfolding_all rfl)⟩

theorem rank_enum_map_get {α : Type} (f : ℕ × α → α) (rk : α → ℕ)
    (hf : ∀ p : ℕ × α, rk (f p) = p.1 + 1) (l : List α) (i : ℕ)
    (h : i < (l.enum.map f).length) :
    rk ((l.enum.map f).get ⟨i, h⟩) = i + 1 := by
  rw [get_enum_map]
  exact hf _

/-- Claim C3: when no semifinal battle exists, all group battles of groups A
and B are completed, and each group's standings have at least two drivers,
the progression check creates exactly two semifinal battles — SF1 = (A rank
1) vs (B rank 2) and SF2 = (B rank 1) vs (A rank 2) — where group standings
are the enumeration of a list sorted by wins descending, point differential
descending, points-for descending, qualifying rank ascending, car number
ascending (`standings_key`, accumulated from each completed battle's decisive
round only), with rank = position + 1. -/
theorem create_semifinals_spec (s : CompetitionState)
    (a1 a2 : Stat) (restA : List Stat) (b1 b2 : Stat) (restB : List Stat)
    (hA : group_standings s "A" = a1 :: a2 :: restA)
    (hB : group_standings s "B" = b1 :: b2 :: restB)
    (hns : has_stage s "semifinal" = false)
    (hgA : all_battles_completed s "group" (some "A") = true)
    (hgB : all_battles_completed s "group" (some "B") = true) :
    (try_progress_competition s).2.created_semifinals = true ∧
    (try_progress_competition s).1.battles = s.battles ++
      [⟨fresh_battle_id s, "semifinal", none, 1, a1.driver_id, b2.driver_id,
        "pending", none, none⟩,
       ⟨fresh_battle_id s + 1, "semifinal", none, 2, b1.driver_id,
        a2.driver_id, "pending", none, none⟩] ∧
    (∀ g : String, ∃ pre : List Stat,
      List.Sorted (keyLe standings_key) pre ∧
      group_standings s g = pre.enum.map (fun p =>
        { p.2 with
          rank := p.1 + 1,
          point_diff := round_score (p.2.points_for - p.2.points_against),
          points_for := round_score p.2.points_for,
          points_against := round_score p.2.points_against })) ∧
    (∀ (g : String) (i : ℕ) (h : i < (group_standings s g).length),
      ((group_standings s g).get ⟨i, h⟩).rank = i + 1) := by
  have hsemis : try_create_semifinals s =
      ({ s with battles := s.battles ++
        [⟨fresh_battle_id s, "semifinal", none, 1, a1.driver_id,
          b2.driver_id, "pending", none, none⟩,
         ⟨fresh_battle_id s + 1, "semifinal", none, 2, b1.driver_id,
          a2.driver_id, "pending", none, none⟩] }, true) := by
    unfold try_create_semifinals
    simp [hns, hgA, hgB, hA, hB]
  have hsf1mem : (⟨fresh_battle_id s, "semifinal", none, 1, a1.driver_id,
      b2.driver_id, "pending", none, none⟩ : BattleT) ∈
      (try_create_semifinals s).1.battles := by
    rw [hsemis]
    simp
  have habc : all_battles_completed (try_create_semifinals s).1 "semifinal"
      none = false :=
    abc_false_of_pending_mem hsf1mem rfl (by simp)
  have h2 : try_create_final_and_third_place (try_create_semifinals s).1 =
      ((try_create_semifinals s).1, false) := by
    apply finals_step_false
    rw [finals_flag]
    simp [finals_ready, habc]
  have hchar : ∀ g : String, group_standings s g = [] ∨
      group_standings s g =
        (sortByKey standings_key
          ((s.battles.filter (fun b => decide (b.stage = "group") &&
            decide (b.group_name = some g))).foldl (apply_battle s)
            (init_stats (s.entries.filter
              (fun e => decide (e.group_name = some g)))))).enum.map (fun p =>
          { p.2 with
            rank := p.1 + 1,
            point_diff := round_score (p.2.points_for - p.2.points_against),
            points_for := round_score p.2.points_for,
            points_against := round_score p.2.points_against }) := by
    intro g
    unfold group_standings
    dsimp only
    split
    · exact Or.inl rfl
    · exact Or.inr rfl
  refine ⟨?_, ?_, ?_, ?_⟩
  · have : (try_progress_competition s).2.created_semifinals =
        (try_create_semifinals s).2 := rfl
    rw [this, hsemis]
  · have htp : (try_progress_competition s).1 =
        (finalize_competition_if_ready
          ((try_create_final_and_third_place (try_create_semifinals s).1).1)).1 :=
      rfl
    rw [htp, (fin_step_preserves _).1, h2]
    rw [hsemis]
  · intro g
    rcases hchar g with h | h
    · exact ⟨[], List.sorted_nil, by rw [h]; rfl⟩
    · exact ⟨_, sortByKey_sorted standings_key _, h⟩
  · intro g i hi
    rcases hchar g with h | h
    · rw [h] at hi
      simp at hi
    · revert hi
      rw [h]
      intro hi
      exact rank_enum_map_get _ (fun st => st.rank) (fun p => rfl) _ i hi

/-- Concrete state for the C3 witness: both group battles completed 6/4. -/
def stateC3 : CompetitionState :=
  ⟨"tournament", [7],
   [⟨1, 10, some "A", some 1, 95, none, 0, 0, 0⟩,
    ⟨2, 20, some "B", some 2, 90, none, 0, 0, 0⟩,
    ⟨3, 30, some "A", some 3, 85, none, 0, 0, 0⟩,
    ⟨4, 40, some "B", some 4, 80, none, 0, 0, 0⟩],
   [⟨1, "group", some "A", 1, 1, 3, "completed", some 1, some 3⟩,
    ⟨2, "group", some "B", 1, 2, 4, "completed", some 2, some 4⟩],
   [⟨1, 0, 1, 7, 6, 4⟩, ⟨1, 0, 2, 7, 6, 4⟩,
    ⟨2, 0, 1, 7, 6, 4⟩, ⟨2, 0, 2, 7, 6, 4⟩], []⟩

/-- Witness for C3: with A = [driver 1, driver 3] and B = [driver 2,
driver 4], the check creates SF1 = driver 1 vs driver 4 and SF2 = driver 2
vs driver 3. -/
theorem create_semifinals_spec_witness :
    group_standings stateC3 "A" =
      [⟨1, 10, 1, 0, 6, 4, 1, 1, 2⟩, ⟨3, 30, 0, 1, 4, 6, 3, 2, -2⟩] ∧
    group_standings stateC3 "B" =
      [⟨2, 20, 1, 0, 6, 4, 2, 1, 2⟩, ⟨4, 40, 0, 1, 4, 6, 4, 2, -2⟩] ∧
    (try_progress_competition stateC3).2.created_semifinals = true ∧
    (try_progress_competition stateC3).1.battles = stateC3.battles ++
      [⟨3, "semifinal", none, 1, 1, 4, "pending", none, none⟩,
       ⟨3 + 1, "semifinal", none, 2, 2, 3, "pending", none, none⟩] := by
  have h := create_semifinals_spec stateC3
    ⟨1, 10, 1, 0, 6, 4, 1, 1, 2⟩ ⟨3, 30, 0, 1, 4, 6, 3, 2, -2⟩ []
    ⟨2, 20, 1, 0, 6, 4, 2, 1, 2⟩ ⟨4, 40, 0, 1, 4, 6, 4, 2, -2⟩ []
    (by with_unfolding_all rfl) (by with_unfolding_all rfl)
    (by with_unfolding_all rfl) (by with_unfolding_all rfl)
    (by with_unfolding_all rfl)
  exact ⟨by with_unfolding_all rfl, by with_unfolding_all rfl, h.1, h.2.1⟩

theorem insertAL_not_mem {l : List (ℕ × ℕ)} {k : ℕ} (v : ℕ)
    (h : k ∉ l.map (fun p => p.1)) : insertAL l k v = l ++ [(k, v)] := by
  unfold insertAL
  rw [if_neg]
  intro hc
  rw [List.any_eq_true] at hc
  obtain ⟨p, hp, hpk⟩ := hc
  simp only [decide_eq_true_eq] at hpk
  exact h (List.mem_map.mpr ⟨p, hp, hpk⟩)

theorem lookupAL_append_left {l1 l2 : List (ℕ × ℕ)} {k : ℕ}
    (h : k ∈ l1.map (fun p => p.1)) :
    lookupAL (l1 ++ l2) k = lookupAL l1 k := by
  unfold lookupAL
  rw [List.find?_append]
  obtain ⟨p, hp, hpk⟩ := List.mem_map.mp h
  have hs : (l1.find? (fun p => decide (p.1 = k))).isSome := by
    rw [List.find?_isSome]
    exact ⟨p, hp, by simp [hpk]⟩
  cases hf : l1.find? (fun p => decide (p.1 = k)) with
  | none => rw [hf] at hs; simp at hs
  | some q => rfl

theorem lookupAL_append_self {l : List (ℕ × ℕ)} {k : ℕ} (v : ℕ)
    (h : k ∉ l.map (fun p => p.1)) :
    lookupAL (l ++ [(k, v)]) k = some v := by
  unfold lookupAL
  rw [List.find?_append]
  have hf : l.find? (fun p => decide (p.1 = k)) = none := by
    rw [List.find?_eq_none]
    intro p hp
    simp only [decide_eq_true_eq]
    intro hc
    exact h (List.mem_map.mpr ⟨p, hp, hc⟩)
  rw [hf]
  simp

theorem place_fold_spec :
    ∀ (rem : List ℕ) (acc : List (ℕ × ℕ)) (n : ℕ),
      rem.Nodup → (∀ d ∈ rem, d ∉ acc.map (fun p => p.1)) →
      ((∀ k, k ∈ acc.map (fun p => p.1) →
        lookupAL ((rem.foldl (fun ac x => (insertAL ac.1 x ac.2, ac.2 + 1))
          (acc, n)).1) k = lookupAL acc k) ∧
       (∀ i (h : i < rem.length),
        lookupAL ((rem.foldl (fun ac x => (insertAL ac.1 x ac.2, ac.2 + 1))
          (acc, n)).1) (rem.get ⟨i, h⟩) = some (n + i))) := by
  intro rem
  induction rem with
  | nil =>
    intro acc n _ _
    exact ⟨fun k _ => rfl, fun i h => absurd h (by simp)⟩
  | cons d ds ih =>
    intro acc n hnodup hdis
    have hdn : d ∉ acc.map (fun p => p.1) := hdis d (List.mem_cons_self _ _)
    have hins : insertAL acc d n = acc ++ [(d, n)] := insertAL_not_mem n hdn
    have hnodup2 : ds.Nodup := (List.nodup_cons.mp hnodup).2
    have hdmem : d ∉ ds := (List.nodup_cons.mp hnodup).1
    have hdis2 : ∀ x ∈ ds, x ∉ (acc ++ [(d, n)]).map (fun p => p.1) := by
      intro x hx
      rw [List.map_append]
      intro hc
      rcases List.mem_append.mp hc with hc | hc
      · exact hdis x (List.mem_cons_of_mem _ hx) hc
      · simp at hc
        exact hdmem (hc ▸ hx)
    have hfold : (d :: ds).foldl
        (fun ac x => (insertAL ac.1 x ac.2, ac.2 + 1)) (acc, n) =
        ds.foldl (fun ac x => (insertAL ac.1 x ac.2, ac.2 + 1))
          (acc ++ [(d, n)], n + 1) := by
      rw [List.foldl_cons]
      dsimp only
      rw [hins]
    obtain ⟨ihl, ihr⟩ := ih (acc ++ [(d, n)]) (n + 1) hnodup2 hdis2
    constructor
    · intro k hk
      rw [hfold,
        ihl k (by rw [List.map_append]; exact List.mem_append_left _ hk)]
      exact lookupAL_append_left hk
    · intro i h
      cases i with
      | zero =>
        rw [hfold]
        have hget : (d :: ds).get ⟨0, h⟩ = d := rfl
        rw [hget, ihl d (by rw [List.map_append]; simp),
          lookupAL_append_self n hdn]
        simp
      | succ j =>
        rw [hfold]
        have hj : j < ds.length := by simpa using h
        have hget : (d :: ds).get ⟨j + 1, h⟩ = ds.get ⟨j, hj⟩ := rfl
        rw [hget, ihr j hj]
        congr 1
        omega

theorem ids_updStat (l : List Stat) (dd : ℕ) (f : Stat → Stat)
    (hf : ∀ x, (f x).driver_id = x.driver_id) :
    (updStat l dd f).map (fun st => st.driver_id) =
      l.map (fun st => st.driver_id) := by
  unfold updStat
  rw [List.map_map]
  apply List.map_congr_left
  intro x _
  by_cases hx : x.driver_id = dd <;> simp [hx, hf]

theorem ids_apply_battle (s : CompetitionState) (stats : List Stat)
    (b : BattleT) :
    (apply_battle s stats b).map (fun st => st.driver_id) =
      stats.map (fun st => st.driver_id) := by
  unfold apply_battle
  split
  · rfl
  · dsimp only
    rw [ids_updStat, ids_updStat, ids_updStat, ids_updStat]
    all_goals exact fun x => rfl

theorem ids_foldl_apply (s : CompetitionState) (battles : List BattleT) :
    ∀ stats : List Stat,
      (battles.foldl (apply_battle s) stats).map (fun st => st.driver_id) =
        stats.map (fun st => st.driver_id) := by
  induction battles with
  | nil => intro stats; rfl
  | cons b bs ih =>
    intro stats
    rw [List.foldl_cons, ih, ids_apply_battle]

theorem ids_insertStat (l : List Stat) (st : Stat) :
    (insertStat l st).map (fun x => x.driver_id) =
      l.map (fun x => x.driver_id) ∨
    ((insertStat l st).map (fun x => x.driver_id) =
      l.map (fun x => x.driver_id) ++ [st.driver_id] ∧
      st.driver_id ∉ l.map (fun x => x.driver_id)) := by
  unfold insertStat
  split
  next h =>
    left
    rw [List.map_map]
    apply List.map_congr_left
    intro x _
    by_cases hx : x.driver_id = st.driver_id <;> simp [hx]
  next h =>
    right
    refine ⟨by rw [List.map_append]; rfl, ?_⟩
    intro hc
    apply h
    rw [List.any_eq_true]
    obtain ⟨x, hx, hxe⟩ := List.mem_map.mp hc
    exact ⟨x, hx, by simp [hxe]⟩

theorem init_stats_ids_aux (l : List EntryT) :
    ∀ acc : List Stat, (acc.map (fun x => x.driver_id)).Nodup →
      ((l.foldl (fun a e => insertStat a (initStat e)) acc).map
        (fun x => x.driver_id)).Nodup ∧
      ∀ x ∈ (l.foldl (fun a e => insertStat a (initStat e)) acc).map
          (fun x => x.driver_id),
        x ∈ acc.map (fun x => x.driver_id) ∨
          x ∈ l.map (fun e => e.driver_id) := by
  induction l with
  | nil =>
    intro acc h
    exact ⟨h, fun x hx => Or.inl hx⟩
  | cons e es ih =>
    intro acc h
    rw [List.foldl_cons]
    rcases ids_insertStat acc (initStat e) with hi | ⟨hi, hnm⟩
    · obtain ⟨h1, h2⟩ := ih (insertStat acc (initStat e)) (by rw [hi]; exact h)
      refine ⟨h1, fun x hx => ?_⟩
      rcases h2 x hx with hx2 | hx2
      · rw [hi] at hx2
        exact Or.inl hx2
      · exact Or.inr (List.mem_cons_of_mem _ hx2)
    · have hnodup2 : ((insertStat acc (initStat e)).map
          (fun x => x.driver_id)).Nodup := by
        rw [hi]
        refine List.Nodup.append h (List.nodup_singleton _) ?_
        intro a ha hb
        simp only [List.mem_singleton] at hb
        exact hnm (hb ▸ ha)
      obtain ⟨h1, h2⟩ := ih _ hnodup2
      refine ⟨h1, fun x hx => ?_⟩
      rcases h2 x hx with hx2 | hx2
      · rw [hi] at hx2
        rcases List.mem_append.mp hx2 with hx3 | hx3
        · exact Or.inl hx3
        · simp only [List.mem_singleton] at hx3
          right
          rw [hx3]
          exact List.mem_cons_self _ _
      · exact Or.inr (List.mem_cons_of_mem _ hx2)

theorem init_stats_ids_nodup (l : List EntryT) :
    ((init_stats l).map (fun x => x.driver_id)).Nodup :=
  (init_stats_ids_aux l [] (by simp)).1

theorem init_stats_ids_subset (l : List EntryT) :
    ∀ x ∈ (init_stats l).map (fun x => x.driver_id),
      x ∈ l.map (fun e => e.driver_id) := by
  intro x hx
  rcases (init_stats_ids_aux l [] (by simp)).2 x hx with h | h
  · simp at h
  · exact h

theorem ids_enum_map {α β : Type} (f : ℕ × α → α) (g : α → β) (l : List α)
    (hf : ∀ p : ℕ × α, g (f p) = g p.2) :
    (l.enum.map f).map g = l.map g := by
  rw [List.map_map]
  have h1 : (g ∘ f) = fun p : ℕ × α => g p.2 := funext hf
  rw [h1]
  have h2 : (fun p : ℕ × α => g p.2) = g ∘ Prod.snd := rfl
  rw [h2, ← List.map_map, List.enum_map_snd]

theorem standings_ids_perm (s : CompetitionState) (g : String) :
    ((group_standings s g).map (fun st => st.driver_id)).Perm
      ((init_stats (s.entries.filter
        (fun e => decide (e.group_name = some g)))).map
        (fun x => x.driver_id)) := by
  unfold group_standings
  dsimp only
  split
  next h =>
    rw [List.isEmpty_iff] at h
    rw [h]
    exact List.Perm.refl _
  next h =>
    rw [ids_enum_map (fun p : ℕ × Stat =>
      { p.2 with
        rank := p.1 + 1,
        point_diff := round_score (p.2.points_for - p.2.points_against),
        points_for := round_score p.2.points_for,
        points_against := round_score p.2.points_against })
      (fun st : Stat => st.driver_id) _ (fun p => rfl)]
    have hp := (sortByKey_perm standings_key
      ((s.battles.filter (fun b => decide (b.stage = "group") &&
        decide (b.group_name = some g))).foldl (apply_battle s)
        (init_stats (s.entries.filter
          (fun e => decide (e.group_name = some g)))))).map
      (fun st => st.driver_id)
    rw [ids_foldl_apply] at hp
    exact hp

theorem standings_ids_nodup (s : CompetitionState) (g : String) :
    ((group_standings s g).map (fun st => st.driver_id)).Nodup :=
  (standings_ids_perm s g).nodup_iff.mpr (init_stats_ids_nodup _)

theorem standings_ids_entry (s : CompetitionState) (g : String) :
    ∀ x ∈ (group_standings s g).map (fun st => st.driver_id),
      ∃ e ∈ s.entries, e.driver_id = x ∧ e.group_name = some g := by
  intro x hx
  have h1 := (standings_ids_perm s g).mem_iff.mp hx
  have h2 := init_stats_ids_subset _ x h1
  obtain ⟨e, he, hex⟩ := List.mem_map.mp h2
  rw [List.mem_filter] at he
  exact ⟨e, he.1, hex, by simpa using he.2⟩

theorem standings_ids_disjoint (s : CompetitionState)
    (hn : (s.entries.map (fun e => e.driver_id)).Nodup) :
    ∀ x, x ∈ (group_standings s "A").map (fun st => st.driver_id) →
      x ∈ (group_standings s "B").map (fun st => st.driver_id) → False := by
  intro x hA hB
  obtain ⟨eA, heA, hidA, hgA⟩ := standings_ids_entry s "A" x hA
  obtain ⟨eB, heB, hidB, hgB⟩ := standings_ids_entry s "B" x hB
  have heq : eA = eB :=
    List.inj_on_of_nodup_map hn heA heB (hidA.trans hidB.symm)
  rw [heq, hgB] at hgA
  simp at hgA

theorem remainder_nodup (s : CompetitionState) (excluded : List ℕ)
    (hn : (s.entries.map (fun e => e.driver_id)).Nodup) :
    (remaining_order_after_top4 s excluded).Nodup := by
  unfold remaining_order_after_top4
  dsimp only
  have hmerged : (((group_standings s "A") ++ (group_standings s "B")).map
      (fun st => st.driver_id)).Nodup := by
    rw [List.map_append]
    refine List.Nodup.append (standings_ids_nodup s "A")
      (standings_ids_nodup s "B") ?_
    intro a ha hb
    exact standings_ids_disjoint s hn a ha hb
  have hfilter : ((((group_standings s "A") ++ (group_standings s "B")).filter
      (fun row => !excluded.contains row.driver_id)).map
      (fun st => st.driver_id)).Nodup := by
    refine List.Nodup.sublist ?_ hmerged
    exact List.Sublist.map _ (List.filter_sublist _)
  have hperm := (sortByKey_perm (fun row : Stat =>
    toLex (row.rank, toLex (row.qualifying_rank, row.driver_number)))
    (((group_standings s "A") ++ (group_standings s "B")).filter
      (fun row => !excluded.contains row.driver_id))).map
    (fun st => st.driver_id)
  exact hperm.nodup_iff.mpr hfilter

theorem remainder_not_excluded (s : CompetitionState) (excluded : List ℕ) :
    ∀ d ∈ remaining_order_after_top4 s excluded, d ∉ excluded := by
  intro d hd
  unfold remaining_order_after_top4 at hd
  dsimp only at hd
  obtain ⟨row, hrow, hid⟩ := List.mem_map.mp hd
  have hrow2 := (sortByKey_perm _ _).mem_iff.mp hrow
  rw [List.mem_filter] at hrow2
  have hnc := hrow2.2
  intro hc
  rw [← hid] at hc
  simp at hnc
  exact hnc hc

/-- Claim C2: when the competition is not yet completed, its final and
third-place battles are both completed with nonzero winner and loser set, and
driver ids are unique, finalisation fires: the flag is true, the competition
transitions to completed, every entry is rewritten by the placement map; the
map sends the final's winner to 1, the final's loser to 2, the third-place
winner to 3, the third-place loser to 4, and the remaining drivers of the
merged group standings — ordered by within-group rank, then qualifying rank,
then car number, all ascending — to 5, 6, …; each placed entry receives
competition_points = forPlace(place), qualifying_points = qualifying_score +
bonusForRank(qualifying_rank), total_points = their sum, all rounded to two
decimals. -/
theorem finalize_competition_spec (s : CompetitionState) (fb tb : BattleT)
    (w1 w2 w3 w4 : ℕ)
    (hst : s.status ≠ "completed")
    (habcF : all_battles_completed s "final" none = true)
    (habcT : all_battles_completed s "third_place" none = true)
    (hfb : s.battles.find? (fun b => decide (b.stage = "final")) = some fb)
    (htb : s.battles.find? (fun b => decide (b.stage = "third_place")) =
      some tb)
    (hw1 : fb.winner_id = some w1) (hw2 : fb.loser_id = some w2)
    (hw3 : tb.winner_id = some w3) (hw4 : tb.loser_id = some w4)
    (hnz1 : w1 ≠ 0) (hnz2 : w2 ≠ 0) (hnz3 : w3 ≠ 0) (hnz4 : w4 ≠ 0)
    (hd12 : w1 ≠ w2) (hd13 : w1 ≠ w3) (hd14 : w1 ≠ w4)
    (hd23 : w2 ≠ w3) (hd24 : w2 ≠ w4) (hd34 : w3 ≠ w4)
    (hnodup : (s.entries.map (fun e => e.driver_id)).Nodup) :
    (finalize_competition_if_ready s).2 = true ∧
    (finalize_competition_if_ready s).1.status = "completed" ∧
    (finalize_competition_if_ready s).1.entries =
      s.entries.map (finalizeEntry (finalize_place_map s fb tb)) ∧
    lookupAL (finalize_place_map s fb tb) w1 = some 1 ∧
    lookupAL (finalize_place_map s fb tb) w2 = some 2 ∧
    lookupAL (finalize_place_map s fb tb) w3 = some 3 ∧
    lookupAL (finalize_place_map s fb tb) w4 = some 4 ∧
    (∀ i (h : i < (remaining_order_after_top4 s [w1, w2, w3, w4]).length),
      lookupAL (finalize_place_map s fb tb)
        ((remaining_order_after_top4 s [w1, w2, w3, w4]).get ⟨i, h⟩) =
        some (5 + i)) ∧
    (∃ pre : List Stat,
      remaining_order_after_top4 s [w1, w2, w3, w4] =
        pre.map (fun row => row.driver_id) ∧
      List.Sorted (keyLe (fun row : Stat =>
        toLex (row.rank, toLex (row.qualifying_rank, row.driver_number))))
        pre ∧
      pre.Perm ((group_standings s "A" ++ group_standings s "B").filter
        (fun row => !([w1, w2, w3, w4] : List ℕ).contains row.driver_id))) ∧
    (∀ e : EntryT, ∀ p : ℕ,
      lookupAL (finalize_place_map s fb tb) e.driver_id = some p →
      finalizeEntry (finalize_place_map s fb tb) e =
        { e with
          final_place := some p,
          competition_points :=
            round_score ((competition_points_for_place p : ℚ)),
          qualifying_points := round_score (e.qualifying_score +
            (qualifying_bonus_for_rank (rank_or_9999 e.qualifying_rank) : ℚ)),
          total_points := round_score
            (round_score ((competition_points_for_place p : ℚ)) +
             round_score (e.qualifying_score +
               (qualifying_bonus_for_rank
                 (rank_or_9999 e.qualifying_rank) : ℚ))) }) := by
  have hplace0 : insertAL (insertAL (insertAL (insertAL [] w1 1) w2 2)
      w3 3) w4 4 = [(w1, 1), (w2, 2), (w3, 3), (w4, 4)] := by
    simp [insertAL, hd12, hd13, hd14, hd23, hd24, hd34]
  have hpm : finalize_place_map s fb tb =
      ((remaining_order_after_top4 s [w1, w2, w3, w4]).foldl
        (fun acc d => (insertAL acc.1 d acc.2, acc.2 + 1))
        ([(w1, 1), (w2, 2), (w3, 3), (w4, 4)], 5)).1 := by
    unfold finalize_place_map
    rw [hw1, hw2, hw3, hw4]
    dsimp only [Option.getD_some]
    rw [hplace0]
    rfl
  have hrnd : (remaining_order_after_top4 s [w1, w2, w3, w4]).Nodup :=
    remainder_nodup s [w1, w2, w3, w4] hnodup
  have hrdis : ∀ d ∈ remaining_order_after_top4 s [w1, w2, w3, w4],
      d ∉ ([(w1, 1), (w2, 2), (w3, 3), (w4, 4)] : List (ℕ × ℕ)).map
        (fun p => p.1) := by
    intro d hd
    have hne := remainder_not_excluded s [w1, w2, w3, w4] d hd
    simpa using hne
  obtain ⟨hkeep, hrem⟩ := place_fold_spec
    (remaining_order_after_top4 s [w1, w2, w3, w4])
    [(w1, 1), (w2, 2), (w3, 3), (w4, 4)] 5 hrnd hrdis
  have hl1 : lookupAL [(w1, 1), (w2, 2), (w3, 3), (w4, 4)] w1 = some 1 := by
    simp [lookupAL, List.find?]
  have hl2 : lookupAL [(w1, 1), (w2, 2), (w3, 3), (w4, 4)] w2 = some 2 := by
    simp [lookupAL, List.find?, hd12]
  have hl3 : lookupAL [(w1, 1), (w2, 2), (w3, 3), (w4, 4)] w3 = some 3 := by
    simp [lookupAL, List.find?, hd13, hd23]
  have hl4 : lookupAL [(w1, 1), (w2, 2), (w3, 3), (w4, 4)] w4 = some 4 := by
    simp [lookupAL, List.find?, hd14, hd24, hd34]
  have htru : truthyN fb.winner_id = true ∧ truthyN fb.loser_id = true ∧
      truthyN tb.winner_id = true ∧ truthyN tb.loser_id = true := by
    rw [hw1, hw2, hw3, hw4]
    simp [truthyN, hnz1, hnz2, hnz3, hnz4]
  have hgate : finalize_competition_if_ready s =
      ({ s with
         entries := s.entries.map
           (finalizeEntry (finalize_place_map s fb tb)),
         status := "completed" }, true) := by
    unfold finalize_competition_if_ready
    rw [if_neg hst, if_neg (not_not_intro habcF), if_neg (not_not_intro habcT),
      hfb, htb]
    dsimp only
    rw [if_pos htru]
  refine ⟨by rw [hgate], by rw [hgate], by rw [hgate], ?_, ?_, ?_, ?_, ?_,
    ?_, ?_⟩
  · rw [hpm, hkeep w1 (by simp)]
    exact hl1
  · rw [hpm, hkeep w2 (by simp)]
    exact hl2
  · rw [hpm, hkeep w3 (by simp)]
    exact hl3
  · rw [hpm, hkeep w4 (by simp)]
    exact hl4
  · intro i h
    rw [hpm]
    exact hrem i h
  · refine ⟨sortByKey (fun row : Stat =>
      toLex (row.rank, toLex (row.qualifying_rank, row.driver_number)))
      ((group_standings s "A" ++ group_standings s "B").filter
        (fun row => !([w1, w2, w3, w4] : List ℕ).contains row.driver_id)),
      rfl, sortByKey_sorted _ _, sortByKey_perm _ _⟩
  · intro e p hp
    unfold finalizeEntry
    rw [hp]

/-- The completed final battle of the C2 witness. -/
def fbC2 : BattleT := ⟨10, "final", none, 1, 1, 2, "completed", some 1, some 2⟩

/-- The completed third-place battle of the C2 witness. -/
def tbC2 : BattleT :=
  ⟨11, "third_place", none, 1, 3, 4, "completed", some 3, some 4⟩

/-- Concrete state for the C2 witness: five drivers, final won by driver 1
over driver 2, third place won by driver 3 over driver 4, driver 5 left in
the group standings. -/
def stateC2 : CompetitionState :=
  ⟨"tournament", [7],
   [⟨1, 10, some "A", some 1, 95, none, 0, 0, 0⟩,
    ⟨2, 20, some "B", some 2, 90, none, 0, 0, 0⟩,
    ⟨3, 30, some "A", some 3, 85, none, 0, 0, 0⟩,
    ⟨4, 40, some "B", some 4, 80, none, 0, 0, 0⟩,
    ⟨5, 50, some "A", some 5, 75, none, 0, 0, 0⟩],
   [fbC2, tbC2], [], []⟩

/-- Witness for C2: finalisation fires, places the top four by the two
decider battles, and places the one remaining driver fifth. -/
theorem finalize_competition_spec_witness :
    (finalize_competition_if_ready stateC2).2 = true ∧
    (finalize_competition_if_ready stateC2).1.status = "completed" ∧
    lookupAL (finalize_place_map stateC2 fbC2 tbC2) 1 = some 1 ∧
    lookupAL (finalize_place_map stateC2 fbC2 tbC2) 4 = some 4 ∧
    lookupAL (finalize_place_map stateC2 fbC2 tbC2) 5 = some 5 := by
  have h := finalize_competition_spec stateC2 fbC2 tbC2 1 2 3 4
    (by decide) (by with_unfolding_all rfl) (by with_unfolding_all rfl)
    (by with_unfolding_all rfl) (by with_unfolding_all rfl)
    rfl rfl rfl rfl
    (by decide) (by decide) (by decide) (by decide)
    (by decide) (by decide) (by decide) (by decide) (by decide) (by decide)
    (by decide)
  refine ⟨h.1, h.2.1, h.2.2.2.1, h.2.2.2.2.2.2.1, ?_⟩
  have hrem : remaining_order_after_top4 stateC2 [1, 2, 3, 4] = [5] := by
    with_unfolding_all rfl
  have hlen : 0 < (remaining_order_after_top4 stateC2 [1, 2, 3, 4]).length := by
    rw [hrem]
    decide
  have h8 := h.2.2.2.2.2.2.2.1 0 hlen
  have hget := List.get_of_eq hrem ⟨0, hlen⟩
  rw [hget] at h8
  simpa using h8
